import Mathlib

/-!
Verification development for the Botify repository (src/bot.py, src/ig.py).

The two source files are near-identical variants of one Instagram automation
client.  Shared methods (`safe_action`, `_handle_retry`, `_within_limit`,
`handle_stories`, `engage_feed`, `authenticate`) are embedded once; the
variant-specific pieces (limits maps, `__init__` configuration,
`follow_target_account` / `unfollow_target_account` from bot.py,
`dm_new_followers` and the persistent messaged-users store from ig.py,
`execute_cycle` of each file) are embedded separately.

Modelling conventions:
* Python sets on the bot instance become `Finset` fields of a state record
  `St` that is threaded through every function.
* Remote calls go through a `Provider` record whose methods return
  `Except Exc _`; the exception classes imported from instagrapi are
  modelled as the disjoint constructors of `Exc` (the library's class
  hierarchy is external to the repository).
* Every invoked remote call is recorded in an event trace (`Ev`), with a
  Boolean telling whether the call succeeded.  Sleeps are recorded too.
* The `random` module is modelled by two oracle streams: `F : Nat → ℚ` for
  `random.random()` / `random.uniform` draws and `I : Nat → Nat` for
  `random.randint` / `random.choice` draws, with per-stream cursors `fi`,
  `ii` kept in the state.  `random.randint lo hi` is modelled as
  `lo + I ii % (hi - lo + 1)`, realizing its documented range.
* `exit(1)` and an uncaught exception are terminal outcomes (`Stop`).
-/

/-- The exception classes named in the source imports, plus a constructor
for any other exception class (`ValueError`, `KeyError`, ...). -/
inductive Exc where
  | clientError
  | clientConnectionError
  | challengeRequired
  | loginRequired
  | badPassword
  | other (msg : String)
  deriving DecidableEq, Repr

/-- A story object as used by the source: `story.id` and `story.pk`. -/
structure Story where
  id : String
  pk : String
  deriving DecidableEq, Repr

/-- A feed post as used by the source: `post.id` and `post.user.username`. -/
structure Post where
  id : String
  username : String
  deriving DecidableEq, Repr

/-- A followed user as used by `handle_stories`: `user.pk`, `user.username`. -/
structure IgUser where
  pk : String
  username : String
  deriving DecidableEq, Repr

/-- Events: one per remote provider call (with success flag) or sleep. -/
inductive Ev where
  | userFollowing (ok : Bool)
  | userStories (pk : String) (ok : Bool)
  | storySeen (id : String) (pk : String) (ok : Bool)
  | storyLike (id : String) (ok : Bool)
  | userMedias (amount : Nat) (ok : Bool)
  | mediaLike (id : String) (ok : Bool)
  | mediaComment (id : String) (text : String) (ok : Bool)
  | userFollowers (ok : Bool)
  | directSend (text : String) (uid : Nat) (ok : Bool)
  | resolveUser (name : String) (ok : Bool)
  | userFollow (uid : String) (ok : Bool)
  | userUnfollow (uid : String) (ok : Bool)
  | login (ok : Bool)
  | sleepShort
  | sleepSecs (n : Nat)
  deriving DecidableEq, Repr

/-- The action provider (`self.cl`, instagrapi `Client`): every remote call
the source makes, as a result-valued field.  `login` is the result of
`cl.login(**credentials)` used by `authenticate`. -/
structure Provider where
  login : Except Exc Unit
  user_following : Except Exc (List IgUser)
  user_stories : String → Except Exc (List Story)
  story_seen : String → Except Exc Unit
  story_like : String → Except Exc Unit
  user_medias : Nat → Except Exc (List Post)
  media_like : String → Except Exc Unit
  media_comment : String → String → Except Exc Unit
  user_followers : Except Exc (List (Nat × String))
  direct_send : String → Nat → Except Exc Unit
  user_id_from_username : String → Except Exc String
  user_follow : String → Except Exc Unit
  user_unfollow : String → Except Exc Unit

/-- Instance state: the duplicate-tracker sets of both variants
(`viewed_stories`, `liked_posts`, `commented_posts`, `followed_accounts`
from bot.py, `messaged_users` and its backing file from ig.py) plus the
two random-oracle cursors. -/
structure St where
  viewed : Finset String
  liked : Finset String
  commented : Finset String
  followed : Finset String
  messaged : Finset Nat
  file : Option (List String)
  fi : Nat
  ii : Nat
  deriving DecidableEq

/-- `self.limits` of bot.py (follow/unfollow variant). -/
def botLimits : String → Nat
  | "likes" => 100
  | "comments" => 40
  | "story_views" => 200
  | "follows" => 10
  | _ => 0

/-- `self.limits` of ig.py (DM variant). -/
def igLimits : String → Nat
  | "likes" => 100
  | "comments" => 40
  | "dms" => 20
  | "story_views" => 200
  | _ => 0

/-- `_within_limit`: `return count < self.limits.get(action, 0)`. -/
def _within_limit (limits : String → Nat) (action : String) (count : Int) : Bool :=
  count < (limits action : Int)

/-- `random.randint lo hi`, drawn from the integer oracle at cursor `ii`. -/
def randint (I : Nat → Nat) (ii lo hi : Nat) : Nat :=
  lo + I ii % (hi - lo + 1)

/-- Result of a story pass piece: state, `story_count`, trace. -/
structure SOut where
  st : St
  cnt : Nat
  trace : List Ev
  deriving DecidableEq

/-- Result of the feed loop: state, `like_count`, `comment_count`, trace,
and the escaping exception if one aborted the loop. -/
structure FOut where
  st : St
  lc : Nat
  cc : Nat
  trace : List Ev
  exc : Option Exc
  deriving DecidableEq

/-- Result of the DM loop: state, `dm_count`, trace, escaping exception. -/
structure DOut where
  st : St
  cnt : Nat
  trace : List Ev
  exc : Option Exc
  deriving DecidableEq

/-- Result of a whole method body before `safe_action` wrapping: state,
Python return value (`True` / `False` / `None`), trace, escaping
exception. -/
structure BodyOut where
  st : St
  val : Option Bool
  trace : List Ev
  exc : Option Exc
  deriving DecidableEq

/-- Inner `for story in stories` loop of `handle_stories` (both files).
A raised exception is caught by the enclosing per-user `try`, so the loop
simply stops and returns the state mutated so far. -/
def storiesInner (P : Provider) (F : Nat → ℚ) (L : String → Nat) :
    List Story → St → Nat → SOut
  | [], s, cnt => ⟨s, cnt, []⟩
  | story :: rest, s, cnt =>
    if story.id ∈ s.viewed then
      storiesInner P F L rest s cnt
    else
      match P.story_seen story.pk with
      | .error _ => ⟨s, cnt, [.storySeen story.id story.pk false]⟩
      | .ok _ =>
        let s1 : St := { s with viewed := insert story.id s.viewed }
        if F s1.fi < 7/10 then
          match P.story_like story.id with
          | .error _ =>
            ⟨{ s1 with fi := s1.fi + 1 }, cnt,
              [.storySeen story.id story.pk true, .storyLike story.id false]⟩
          | .ok _ =>
            let s2 : St := { s1 with fi := s1.fi + 1 }
            if _within_limit L "story_views" ((cnt + 1 : Nat) : Int) then
              let r := storiesInner P F L rest s2 (cnt + 1)
              ⟨r.st, r.cnt,
                .storySeen story.id story.pk true :: .storyLike story.id true :: r.trace⟩
            else
              ⟨s2, cnt + 1,
                [.storySeen story.id story.pk true, .storyLike story.id true]⟩
        else
          let s2 : St := { s1 with fi := s1.fi + 1 }
          if _within_limit L "story_views" ((cnt + 1 : Nat) : Int) then
            let r := storiesInner P F L rest s2 (cnt + 1)
            ⟨r.st, r.cnt, .storySeen story.id story.pk true :: r.trace⟩
          else
            ⟨s2, cnt + 1, [.storySeen story.id story.pk true]⟩

/-- Outer `for user in following.values()` loop of `handle_stories`.
A failing `user_stories` fetch (or any exception from the inner loop) is
caught by the per-user `try` and the loop continues with the next user. -/
def storiesOuter (P : Provider) (F : Nat → ℚ) (L : String → Nat) :
    List IgUser → St → Nat → SOut
  | [], s, cnt => ⟨s, cnt, []⟩
  | u :: rest, s, cnt =>
    if L "story_views" ≤ cnt then
      ⟨s, cnt, []⟩
    else
      match P.user_stories u.pk with
      | .error _ =>
        let r := storiesOuter P F L rest s cnt
        ⟨r.st, r.cnt, .userStories u.pk false :: r.trace⟩
      | .ok stories =>
        let ri := storiesInner P F L stories s cnt
        let r := storiesOuter P F L rest ri.st ri.cnt
        ⟨r.st, r.cnt, .userStories u.pk true :: (ri.trace ++ r.trace)⟩

/-- The canned comments list of `engage_feed`. -/
def comments3 : List String := ["Great content!", "Well done!", "Awesome post!"]

/-- Result of the comment half of one feed iteration. -/
inductive CStep where
  | go (s : St) (cc : Nat) (evs : List Ev)
  | halt (s : St) (evs : List Ev) (e : Exc)
  deriving DecidableEq

/-- The comment half of one `engage_feed` iteration: the conjunction
`within_limit ∧ post.id not in commented ∧ random() < 0.3` evaluated with
Python short-circuiting (the random draw happens only if the first two
conjuncts hold), then the `media_comment` call. -/
def commentStep (P : Provider) (F : Nat → ℚ) (I : Nat → Nat) (L : String → Nat)
    (post : Post) (s : St) (cc : Nat) : CStep :=
  if _within_limit L "comments" (cc : Int) ∧ post.id ∉ s.commented then
    if F s.fi < 3/10 then
      let text := comments3.getD (I s.ii % 3) ""
      let s1 : St := { s with fi := s.fi + 1, ii := s.ii + 1 }
      match P.media_comment post.id text with
      | .error e => .halt s1 [.mediaComment post.id text false] e
      | .ok _ =>
        .go { s1 with commented := insert post.id s1.commented } (cc + 1)
          [.mediaComment post.id text true]
    else
      .go { s with fi := s.fi + 1 } cc []
  else
    .go s cc []

/-- The `for post in feed` loop of `engage_feed` (both files).  There is no
per-item exception handler: a raised `media_like` / `media_comment`
escapes and aborts the remainder of the loop. -/
def feedLoop (P : Provider) (F : Nat → ℚ) (I : Nat → Nat) (L : String → Nat) :
    List Post → St → Nat → Nat → FOut
  | [], s, lc, cc => ⟨s, lc, cc, [], none⟩
  | post :: rest, s, lc, cc =>
    if post.id ∈ s.liked then
      feedLoop P F I L rest s lc cc
    else if _within_limit L "likes" (lc : Int) then
      match P.media_like post.id with
      | .error e => ⟨s, lc, cc, [.mediaLike post.id false], some e⟩
      | .ok _ =>
        let s1 : St := { s with liked := insert post.id s.liked }
        match commentStep P F I L post s1 cc with
        | .halt s2 evs e => ⟨s2, lc + 1, cc, .mediaLike post.id true :: evs, some e⟩
        | .go s2 cc2 evs =>
          let r := feedLoop P F I L rest s2 (lc + 1) cc2
          ⟨r.st, r.lc, r.cc, .mediaLike post.id true :: (evs ++ r.trace), r.exc⟩
    else
      match commentStep P F I L post s cc with
      | .halt s2 evs e => ⟨s2, lc, cc, evs, some e⟩
      | .go s2 cc2 evs =>
        let r := feedLoop P F I L rest s2 lc cc2
        ⟨r.st, r.lc, r.cc, evs ++ r.trace, r.exc⟩

/-- The `for user_id, user in current_followers.items()` loop of
`dm_new_followers` (ig.py).  New ids are recorded both in memory and by an
append to the persistent file; a raised `direct_send` escapes. -/
def dmLoop (P : Provider) (L : String → Nat) :
    List (Nat × String) → St → Nat → DOut
  | [], s, c => ⟨s, c, [], none⟩
  | (uid, uname) :: rest, s, c =>
    if L "dms" ≤ c ∨ uid ∈ s.messaged then
      dmLoop P L rest s c
    else
      let msg := "Hi " ++ uname ++ ", thanks for connecting!"
      match P.direct_send msg uid with
      | .error e => ⟨s, c, [.directSend msg uid false], some e⟩
      | .ok _ =>
        let s1 : St :=
          { s with messaged := insert uid s.messaged,
                   file := some (s.file.getD [] ++ [Nat.repr uid]) }
        let r := dmLoop P L rest s1 (c + 1)
        ⟨r.st, r.cnt, .directSend msg uid true :: r.trace, r.exc⟩

/-- Body of `handle_stories` before wrapping: the initial
`user_following` fetch is outside any inner `try`, so its failure escapes
to `safe_action`. -/
def handle_stories_core (P : Provider) (F : Nat → ℚ) (L : String → Nat)
    (s : St) : BodyOut :=
  match P.user_following with
  | .error e => ⟨s, none, [.userFollowing false], some e⟩
  | .ok users =>
    let r := storiesOuter P F L users s 0
    ⟨r.st, none, .userFollowing true :: r.trace, none⟩

/-- Body of `engage_feed` before wrapping: feed fetched with
`amount = self.limits['likes']`. -/
def engage_feed_core (P : Provider) (F : Nat → ℚ) (I : Nat → Nat)
    (L : String → Nat) (s : St) : BodyOut :=
  match P.user_medias (L "likes") with
  | .error e => ⟨s, none, [.userMedias (L "likes") false], some e⟩
  | .ok feed =>
    let r := feedLoop P F I L feed s 0 0
    ⟨r.st, none, .userMedias (L "likes") true :: r.trace, r.exc⟩

/-- Body of `dm_new_followers` before wrapping (ig.py). -/
def dm_new_followers_core (P : Provider) (L : String → Nat) (s : St) : BodyOut :=
  match P.user_followers with
  | .error e => ⟨s, none, [.userFollowers false], some e⟩
  | .ok fols =>
    let r := dmLoop P L fols s 0
    ⟨r.st, none, .userFollowers true :: r.trace, r.exc⟩

/-- Body of `follow_target_account` (bot.py).  The whole remote sequence
is inside `try ... except Exception`, so no exception escapes the body. -/
def follow_core (P : Provider) (target : String) (s : St) : BodyOut :=
  if target ∈ s.followed then
    ⟨s, some false, [], none⟩
  else
    match P.user_id_from_username target with
    | .error _ => ⟨s, none, [.resolveUser target false], none⟩
    | .ok uid =>
      match P.user_follow uid with
      | .error _ => ⟨s, none, [.resolveUser target true, .userFollow uid false], none⟩
      | .ok _ =>
        ⟨{ s with followed := insert target s.followed }, some true,
          [.resolveUser target true, .userFollow uid true], none⟩

/-- Body of `unfollow_target_account` (bot.py). -/
def unfollow_core (P : Provider) (target : String) (s : St) : BodyOut :=
  if target ∉ s.followed then
    ⟨s, some false, [], none⟩
  else
    match P.user_id_from_username target with
    | .error _ => ⟨s, none, [.resolveUser target false], none⟩
    | .ok uid =>
      match P.user_unfollow uid with
      | .error _ => ⟨s, none, [.resolveUser target true, .userUnfollow uid false], none⟩
      | .ok _ =>
        ⟨{ s with followed := s.followed.erase target }, some true,
          [.resolveUser target true, .userUnfollow uid true], none⟩

/-- How a wrapped call ends: normal return, `exit(code)`, or an exception
propagating past the wrapper. -/
inductive Stop where
  | normal
  | exited (code : Nat)
  | raised (e : Exc)
  deriving DecidableEq, Repr

/-- Result of a `safe_action`-wrapped call. -/
structure WrapOut where
  st : St
  val : Option Bool
  trace : List Ev
  stop : Stop
  deriving DecidableEq

/-- `_handle_retry`: sleep `random.randint(600, 1200)` seconds. -/
def _handle_retry (I : Nat → Nat) (s : St) : St × List Ev :=
  let d := randint I s.ii 600 1200
  ({ s with ii := s.ii + 1 }, [.sleepSecs d])

/-- `safe_action` applied to a completed body.  Clause by clause from the
source: success sleeps `random.uniform(1.2, 3.8)` and returns the result;
`(ClientError, ClientConnectionError)` invokes `_handle_retry` and returns
`None`; `ChallengeRequired` exits with code 1; `LoginRequired` calls
`authenticate()` (whose own failure modes are: `ChallengeRequired` /
`BadPassword` exit with code 1, any other login exception propagates) and
returns `None`; any exception not matched by a clause propagates. -/
def safe_action (I : Nat → Nat) (loginRes : Except Exc Unit) (b : BodyOut) : WrapOut :=
  match b.exc with
  | none => ⟨{ b.st with fi := b.st.fi + 1 }, b.val, b.trace ++ [.sleepShort], .normal⟩
  | some .clientError =>
    let r := _handle_retry I b.st
    ⟨r.1, none, b.trace ++ r.2, .normal⟩
  | some .clientConnectionError =>
    let r := _handle_retry I b.st
    ⟨r.1, none, b.trace ++ r.2, .normal⟩
  | some .challengeRequired => ⟨b.st, none, b.trace, .exited 1⟩
  | some .loginRequired =>
    match loginRes with
    | .ok _ => ⟨b.st, none, b.trace ++ [.login true], .normal⟩
    | .error .challengeRequired => ⟨b.st, none, b.trace ++ [.login false], .exited 1⟩
    | .error .badPassword => ⟨b.st, none, b.trace ++ [.login false], .exited 1⟩
    | .error e => ⟨b.st, none, b.trace ++ [.login false], .raised e⟩
  | some e => ⟨b.st, none, b.trace, .raised e⟩

/-- Wrapped `handle_stories`. -/
def handle_stories (P : Provider) (F : Nat → ℚ) (I : Nat → Nat)
    (L : String → Nat) (s : St) : WrapOut :=
  safe_action I P.login (handle_stories_core P F L s)

/-- Wrapped `engage_feed`. -/
def engage_feed (P : Provider) (F : Nat → ℚ) (I : Nat → Nat)
    (L : String → Nat) (s : St) : WrapOut :=
  safe_action I P.login (engage_feed_core P F I L s)

/-- Wrapped `dm_new_followers` (ig.py). -/
def dm_new_followers (P : Provider) (I : Nat → Nat) (s : St) : WrapOut :=
  safe_action I P.login (dm_new_followers_core P igLimits s)

/-- Wrapped `follow_target_account` (bot.py). -/
def follow_target_account (P : Provider) (I : Nat → Nat) (target : String)
    (s : St) : WrapOut :=
  safe_action I P.login (follow_core P target s)

/-- Wrapped `unfollow_target_account` (bot.py). -/
def unfollow_target_account (P : Provider) (I : Nat → Nat) (target : String)
    (s : St) : WrapOut :=
  safe_action I P.login (unfollow_core P target s)

/-- Result of one `execute_cycle` (or of a run of cycles). -/
structure CycleOut where
  st : St
  trace : List Ev
  stop : Stop
  deriving DecidableEq

/-- `execute_cycle` of ig.py: stories, feed, DMs in order; an `exit` or a
propagating exception in one pass aborts the cycle there. -/
def ig_execute_cycle (P : Provider) (F : Nat → ℚ) (I : Nat → Nat)
    (s : St) : CycleOut :=
  let w1 := handle_stories P F I igLimits s
  match w1.stop with
  | .normal =>
    let w2 := engage_feed P F I igLimits w1.st
    match w2.stop with
    | .normal =>
      let w3 := dm_new_followers P I w2.st
      ⟨w3.st, w1.trace ++ w2.trace ++ w3.trace, w3.stop⟩
    | h2 => ⟨w2.st, w1.trace ++ w2.trace, h2⟩
  | h1 => ⟨w1.st, w1.trace, h1⟩

/-- `execute_cycle` of bot.py: stories, feed, then
`if self.follow_target_account():` (Python truthiness: only `True` enters
the branch) followed by `time.sleep(random.randint(600, 1200))` and the
unfollow. -/
def bot_execute_cycle (P : Provider) (F : Nat → ℚ) (I : Nat → Nat)
    (target : String) (s : St) : CycleOut :=
  let w1 := handle_stories P F I botLimits s
  match w1.stop with
  | .normal =>
    let w2 := engage_feed P F I botLimits w1.st
    match w2.stop with
    | .normal =>
      let w3 := follow_target_account P I target w2.st
      match w3.stop with
      | .normal =>
        if w3.val = some true then
          let d := randint I w3.st.ii 600 1200
          let s4 : St := { w3.st with ii := w3.st.ii + 1 }
          let w4 := unfollow_target_account P I target s4
          ⟨w4.st, w1.trace ++ w2.trace ++ w3.trace ++ (.sleepSecs d :: w4.trace), w4.stop⟩
        else
          ⟨w3.st, w1.trace ++ w2.trace ++ w3.trace, .normal⟩
      | h3 => ⟨w3.st, w1.trace ++ w2.trace ++ w3.trace, h3⟩
    | h2 => ⟨w2.st, w1.trace ++ w2.trace, h2⟩
  | h1 => ⟨w1.st, w1.trace, h1⟩

/-- The `while True` loop of ig.py's `run`, unrolled over a list of
per-cycle providers (one arbitrary provider per cycle); a 1800 s sleep
separates cycles. -/
def ig_run (F : Nat → ℚ) (I : Nat → Nat) : List Provider → St → CycleOut
  | [], s => ⟨s, [], .normal⟩
  | P :: Ps, s =>
    let c := ig_execute_cycle P F I s
    match c.stop with
    | .normal =>
      let r := ig_run F I Ps c.st
      ⟨r.st, c.trace ++ .sleepSecs 1800 :: r.trace, r.stop⟩
    | h => ⟨c.st, c.trace, h⟩

/-- The `while True` loop of bot.py's `run`, unrolled over a list of
per-cycle providers. -/
def bot_run (F : Nat → ℚ) (I : Nat → Nat) (target : String) :
    List Provider → St → CycleOut
  | [], s => ⟨s, [], .normal⟩
  | P :: Ps, s =>
    let c := bot_execute_cycle P F I target s
    match c.stop with
    | .normal =>
      let r := bot_run F I target Ps c.st
      ⟨r.st, c.trace ++ .sleepSecs 1800 :: r.trace, r.stop⟩
    | h => ⟨c.st, c.trace, h⟩

/-! ## Configuration (`__init__`) of the two variants -/

/-- The environment variables read by bot.py's `__init__`
(`os.getenv` results: `none` when the variable is unset). -/
structure EnvVars where
  instagram_username : Option String
  instagram_password : Option String
  target_account : Option String
  deriving DecidableEq

/-- Python truthiness of an `os.getenv` result: `None` and the empty
string are falsy. -/
def pyTruthy : Option String → Bool
  | none => false
  | some s => !s.isEmpty

/-- Configuration held after a successful bot.py `__init__`. -/
structure BotConfig where
  username : String
  password : String
  target : String
  deriving DecidableEq

/-- bot.py `__init__` validation: credentials first, then the target
account; a falsy value raises `ValueError` with the given message. -/
def bot_init (env : EnvVars) : Except String BotConfig :=
  if !pyTruthy env.instagram_username || !pyTruthy env.instagram_password then
    .error "Instagram credentials not found in environment variables."
  else if !pyTruthy env.target_account then
    .error "Target account not found in environment variables."
  else
    .ok ⟨env.instagram_username.getD "", env.instagram_password.getD "",
         env.target_account.getD ""⟩

/-- ig.py `__init__`: the credentials are hardcoded literals, not read
from the environment. -/
def ig_credentials : String × String := ("xkira2026", "9562449137")

/-- ig.py `__init__`: the persistent store path is a hardcoded literal. -/
def ig_messaged_users_file : String := "messaged_users.txt"

/-! ## Persistent messaged-users store (ig.py)

The file is modelled as `Option (List String)`: `none` when the file does
not exist, otherwise the list of its lines (each line as produced by
`file.write(f"{user_id}\n")`, represented without its terminating
newline; `line.strip()` is absorbed by this representation). -/

/-- Decimal digit to character, as produced by Python `str` formatting:
the code point `'0'` offset by the digit value. -/
def decChar (d : Nat) : Char := Char.ofNat ('0'.toNat + d % 10)

/-- Character to decimal digit, as accepted by Python `int`: code points
`'0'` through `'9'` only. -/
def charDigit (c : Char) : Option Nat :=
  if '0' ≤ c ∧ c ≤ '9' then some (c.toNat - '0'.toNat) else none

/-- `f"{user_id}"`: the decimal rendering of a nonnegative Python int. -/
def pyStrOfNat (n : Nat) : String :=
  if n = 0 then "0" else ⟨((Nat.digits 10 n).reverse.map decChar)⟩

/-- Digit values of a character list, `none` on any non-digit. -/
def digitsOfChars : List Char → Option (List Nat)
  | [] => some []
  | c :: cs =>
    match charDigit c, digitsOfChars cs with
    | some d, some ds => some (d :: ds)
    | _, _ => none

/-- `int(s)` restricted to nonnegative decimal strings: `none` models the
`ValueError` raised on any other input. -/
def pyToInt (s : String) : Option Nat :=
  if s.isEmpty then none
  else (digitsOfChars s.data).map fun l => Nat.ofDigits 10 l.reverse

/-- The set comprehension of `_load_messaged_users` over the lines of an
existing file: blank lines are skipped, every other line goes through
`int(...)`, whose `ValueError` (modelled as `none`) escapes the load. -/
def loadLines : List String → Option (Finset Nat)
  | [] => some ∅
  | l :: rest =>
    if l.isEmpty then loadLines rest
    else
      match pyToInt l with
      | none => none
      | some n => (loadLines rest).map (insert n)

/-- `_load_messaged_users`: a missing file (`FileNotFoundError`) yields
the empty set. -/
def _load_messaged_users : Option (List String) → Option (Finset Nat)
  | none => some ∅
  | some lines => loadLines lines

/-- `_save_messaged_user`: append-mode write of one line, creating the
file when absent. -/
def _save_messaged_user (f : Option (List String)) (uid : Nat) :
    Option (List String) :=
  some (f.getD [] ++ [pyStrOfNat uid])

/-- Recording a list of user ids one `_save_messaged_user` call each. -/
def recordAll (f : Option (List String)) : List Nat → Option (List String)
  | [] => f
  | u :: us => recordAll (_save_messaged_user f u) us

/-! ## Trace observation helpers -/

/-- Count the events satisfying a predicate. -/
def countEv (p : Ev → Bool) (t : List Ev) : Nat := (t.filter p).length

/-- Successful `story_seen` calls (the story-view counter's events). -/
def isSeenOk : Ev → Bool
  | .storySeen _ _ true => true
  | _ => false

/-- `media_like` call attempts. -/
def isLikeEv : Ev → Bool
  | .mediaLike _ _ => true
  | _ => false

/-- `media_comment` call attempts. -/
def isCommentEv : Ev → Bool
  | .mediaComment _ _ _ => true
  | _ => false

/-- `direct_send` call attempts. -/
def isDmEv : Ev → Bool
  | .directSend _ _ _ => true
  | _ => false

/-- `user_follow` / `user_unfollow` call attempts (the follows category). -/
def isFollowEv : Ev → Bool
  | .userFollow _ _ => true
  | .userUnfollow _ _ => true
  | _ => false

/-- Any story-category provider call for the story with id `x`. -/
def touchesStory (x : String) : Ev → Bool
  | .storySeen i _ _ => i == x
  | .storyLike i _ => i == x
  | _ => false

/-- A `media_like` call on post `x`. -/
def likesPost (x : String) : Ev → Bool
  | .mediaLike i _ => i == x
  | _ => false

/-- A `media_comment` call on post `x`. -/
def commentsPost (x : String) : Ev → Bool
  | .mediaComment i _ _ => i == x
  | _ => false

/-- A `direct_send` call to user `u`. -/
def dmsUser (u : Nat) : Ev → Bool
  | .directSend _ i _ => i == u
  | _ => false

/-! ## Basic trace-count lemmas and witness fixtures -/

theorem countEv_nil (p : Ev → Bool) : countEv p [] = 0 := rfl

theorem countEv_cons (p : Ev → Bool) (e : Ev) (t : List Ev) :
    countEv p (e :: t) = (if p e then 1 else 0) + countEv p t := by
  simp only [countEv, List.filter_cons]
  split <;> simp [Nat.add_comm]

theorem countEv_append (p : Ev → Bool) (a b : List Ev) :
    countEv p (a ++ b) = countEv p a + countEv p b := by
  simp [countEv, List.filter_append]

theorem countEv_eq_zero (p : Ev → Bool) (t : List Ev)
    (h : ∀ e ∈ t, p e = false) : countEv p t = 0 := by
  simp only [countEv, List.length_eq_zero]
  exact List.filter_eq_nil_iff.2 fun e he => by simp [h e he]

/-- Empty initial state: fresh trackers, missing store file, oracle
cursors at zero. -/
def st0 : St := ⟨∅, ∅, ∅, ∅, ∅, none, 0, 0⟩

/-- A provider whose every call succeeds trivially. -/
def P0 : Provider where
  login := .ok ()
  user_following := .ok []
  user_stories := fun _ => .ok []
  story_seen := fun _ => .ok ()
  story_like := fun _ => .ok ()
  user_medias := fun _ => .ok []
  media_like := fun _ => .ok ()
  media_comment := fun _ _ => .ok ()
  user_followers := .ok []
  direct_send := fun _ _ => .ok ()
  user_id_from_username := fun u => .ok u
  user_follow := fun _ => .ok ()
  user_unfollow := fun _ => .ok ()

/-- A float oracle that always draws 1 (all probabilistic gates fail). -/
def F0 : Nat → ℚ := fun _ => 1

/-- An integer oracle that always draws 0. -/
def I0 : Nat → Nat := fun _ => 0

/-! ## C9: the quota gate -/

/-- C9: for every configured category of each variant and every integer
count, `_within_limit` returns `true` iff the count is strictly below
that category's ceiling.  The embedded `_within_limit` is a plain total
function of its arguments — it reads no mutable state, performs no
effect, and has no error case, exactly as in the source, where the body
is the single expression `count < self.limits.get(action, 0)`. -/
theorem within_limit_spec (c : Int) :
    (_within_limit botLimits "likes" c = decide (c < 100)
      ∧ _within_limit botLimits "comments" c = decide (c < 40)
      ∧ _within_limit botLimits "story_views" c = decide (c < 200)
      ∧ _within_limit botLimits "follows" c = decide (c < 10))
    ∧ (_within_limit igLimits "likes" c = decide (c < 100)
      ∧ _within_limit igLimits "comments" c = decide (c < 40)
      ∧ _within_limit igLimits "story_views" c = decide (c < 200)
      ∧ _within_limit igLimits "dms" c = decide (c < 20)) := by
  refine ⟨⟨?_, ?_, ?_, ?_⟩, ?_, ?_, ?_, ?_⟩ <;> simp [_within_limit, botLimits, igLimits]

/-! ## C6: transient failures back off 600 to 1200 seconds, never fatal -/

/-- C6: when the wrapped body raises a network/connection error, the
wrapper invokes `_handle_retry`, which sleeps `random.randint(600, 1200)`
seconds; the wrapped call then returns `None` normally (`Stop.normal`):
the process does not terminate.  Stated for both caught classes. -/
theorem transient_backoff (I : Nat → Nat) (lr : Except Exc Unit) (s : St)
    (v : Option Bool) (tr : List Ev) :
    (safe_action I lr ⟨s, v, tr, some .clientConnectionError⟩ =
        ⟨{ s with ii := s.ii + 1 }, none,
          tr ++ [.sleepSecs (randint I s.ii 600 1200)], .normal⟩
      ∧ 600 ≤ randint I s.ii 600 1200 ∧ randint I s.ii 600 1200 ≤ 1200)
    ∧ (safe_action I lr ⟨s, v, tr, some .clientError⟩ =
        ⟨{ s with ii := s.ii + 1 }, none,
          tr ++ [.sleepSecs (randint I s.ii 600 1200)], .normal⟩
      ∧ 600 ≤ randint I s.ii 600 1200 ∧ randint I s.ii 600 1200 ≤ 1200) := by
  have hle : I s.ii % 601 ≤ 600 := Nat.le_of_lt_succ (Nat.mod_lt _ (by omega))
  refine ⟨⟨rfl, ?_, ?_⟩, rfl, ?_, ?_⟩ <;> simp [randint] <;> omega

/-! ## C3: exception handling of the resilient wrapper -/

/-- C3 counterexample: the claim says the wrapper never lets any raised
exception propagate, with unclassified kinds treated as transient.  But
`safe_action` has no catch-all clause: a wrapped body raising an
exception outside the four classified classes (here a `ValueError`)
propagates past the wrapper instead of returning normally. -/
theorem safe_action_counterexample :
    (safe_action I0 (.ok ()) ⟨st0, none, [], some (.other "ValueError")⟩).stop
        = .raised (.other "ValueError")
      ∧ (safe_action I0 (.ok ()) ⟨st0, none, [], some (.other "ValueError")⟩).stop
        ≠ .normal := by
  exact ⟨rfl, by decide⟩

/-- C3 amended: the wrapper never propagates the classified kinds — a
successful body returns its value after the pacing sleep; network and
connection errors produce a backoff and a normal `None` return;
`ChallengeRequired` exits the process with code 1; `LoginRequired`
triggers re-authentication and (when the login succeeds) a normal `None`
return.  An exception of any other class — `BadPassword` raised by a
wrapped body, or an unclassified exception — propagates to the caller. -/
theorem safe_action_amended (I : Nat → Nat) (lr : Except Exc Unit) (s : St)
    (v : Option Bool) (tr : List Ev) (m : String) :
    (safe_action I lr ⟨s, v, tr, none⟩ =
        ⟨{ s with fi := s.fi + 1 }, v, tr ++ [.sleepShort], .normal⟩)
    ∧ ((safe_action I lr ⟨s, v, tr, some .clientError⟩).stop = .normal
      ∧ (safe_action I lr ⟨s, v, tr, some .clientConnectionError⟩).stop = .normal)
    ∧ (safe_action I lr ⟨s, v, tr, some .challengeRequired⟩ =
        ⟨s, none, tr, .exited 1⟩)
    ∧ (safe_action I (.ok ()) ⟨s, v, tr, some .loginRequired⟩ =
        ⟨s, none, tr ++ [.login true], .normal⟩)
    ∧ (safe_action I lr ⟨s, v, tr, some .badPassword⟩ =
        ⟨s, none, tr, .raised .badPassword⟩)
    ∧ (safe_action I lr ⟨s, v, tr, some (.other m)⟩ =
        ⟨s, none, tr, .raised (.other m)⟩) := by
  exact ⟨rfl, ⟨rfl, rfl⟩, rfl, rfl, rfl, rfl⟩

/-! ## C10: posts already liked are skipped entirely in the feed pass -/

/-- C10: a post whose id is already in the liked-posts set is skipped by
the `continue` at the top of the feed loop: the iteration for that post
performs no provider call and changes nothing — the loop result is as if
the post were not in the feed at all.  In particular the comment decision
is never evaluated for it, whatever the commented-posts set contains. -/
theorem feed_skip_liked (P : Provider) (F : Nat → ℚ) (I : Nat → Nat)
    (L : String → Nat) (post : Post) (rest : List Post) (s : St)
    (lc cc : Nat) (h : post.id ∈ s.liked) :
    feedLoop P F I L (post :: rest) s lc cc = feedLoop P F I L rest s lc cc := by
  simp [feedLoop, h]

/-- Witness for C10 at a concrete input. -/
theorem feed_skip_liked_witness :
    feedLoop P0 F0 I0 igLimits [⟨"a", "u"⟩] { st0 with liked := {"a"} } 0 0 =
      feedLoop P0 F0 I0 igLimits [] { st0 with liked := {"a"} } 0 0 :=
  feed_skip_liked P0 F0 I0 igLimits ⟨"a", "u"⟩ [] { st0 with liked := {"a"} } 0 0
    (by decide)

/-! ## C8: startup configuration -/

/-- C8 counterexample: with both credentials present but `TARGET_ACCOUNT`
unset, bot.py's `__init__` raises — the target-account handle is not
optional, contradicting the claim that its absence does not prevent
startup. -/
theorem target_required_counterexample :
    bot_init ⟨some "user", some "pass", none⟩ =
      .error "Target account not found in environment variables." := rfl

/-- C8 amended: in the follow/unfollow variant (bot.py) credentials are
environment-sourced and validated first, and the target-account handle is
equally required — a falsy value for any of the three aborts startup; in
the DM variant (ig.py) the credentials and the store path are hardcoded
literals, not environment-sourced, so nothing is validated at startup. -/
theorem startup_config_amended (env : EnvVars) :
    ((pyTruthy env.instagram_username = false ∨ pyTruthy env.instagram_password = false) →
      bot_init env = .error "Instagram credentials not found in environment variables.")
    ∧ (pyTruthy env.instagram_username = true → pyTruthy env.instagram_password = true →
        pyTruthy env.target_account = false →
        bot_init env = .error "Target account not found in environment variables.")
    ∧ (pyTruthy env.instagram_username = true → pyTruthy env.instagram_password = true →
        pyTruthy env.target_account = true →
        bot_init env = .ok ⟨env.instagram_username.getD "",
          env.instagram_password.getD "", env.target_account.getD ""⟩)
    ∧ ig_credentials = ("xkira2026", "9562449137")
    ∧ ig_messaged_users_file = "messaged_users.txt" := by
  refine ⟨?_, ?_, ?_, rfl, rfl⟩
  · intro h
    rcases h with h | h <;> simp [bot_init, h]
  · intro h1 h2 h3
    simp [bot_init, h1, h2, h3]
  · intro h1 h2 h3
    simp [bot_init, h1, h2, h3]

/-- Witness for C8 amended: all three variables present and nonempty. -/
theorem startup_config_amended_witness :
    bot_init ⟨some "u", some "p", some "t"⟩ = .ok ⟨"u", "p", "t"⟩ :=
  (startup_config_amended ⟨some "u", some "p", some "t"⟩).2.2.1 rfl rfl rfl

/-! ## C7: unfollow_target_account -/

/-- C7: when the target is not in the followed-record the wrapped
unfollow returns `False` without any provider call (the trace holds only
the wrapper's pacing sleep); when it is recorded, the record loses the
target exactly on a successful provider unfollow — a failing resolve or
unfollow leaves the record unchanged and returns `None`. -/
theorem unfollow_target_spec (P : Provider) (I : Nat → Nat) (target : String)
    (s : St) :
    (target ∉ s.followed →
      unfollow_target_account P I target s =
        ⟨{ s with fi := s.fi + 1 }, some false, [.sleepShort], .normal⟩)
    ∧ (target ∈ s.followed → ∀ uid, P.user_id_from_username target = .ok uid →
        (P.user_unfollow uid = .ok () →
          (unfollow_target_account P I target s).st.followed = s.followed.erase target
            ∧ (unfollow_target_account P I target s).val = some true)
        ∧ (∀ e, P.user_unfollow uid = .error e →
          (unfollow_target_account P I target s).st.followed = s.followed
            ∧ (unfollow_target_account P I target s).val = none))
    ∧ (target ∈ s.followed → ∀ e, P.user_id_from_username target = .error e →
        (unfollow_target_account P I target s).st.followed = s.followed
          ∧ (unfollow_target_account P I target s).val = none) := by
  refine ⟨?_, ?_, ?_⟩
  · intro h
    simp [unfollow_target_account, unfollow_core, h, safe_action]
  · intro h uid huid
    constructor
    · intro hok
      simp [unfollow_target_account, unfollow_core, h, huid, hok, safe_action]
    · intro e herr
      simp [unfollow_target_account, unfollow_core, h, huid, herr, safe_action]
  · intro h e herr
    simp [unfollow_target_account, unfollow_core, h, herr, safe_action]

/-- A provider for the C7 witness: resolving yields `"42"`, whose
unfollow succeeds. -/
def P7 : Provider :=
  { P0 with user_id_from_username := fun _ => .ok "42" }

/-- Witness for C7: an unrecorded target is a no-op returning `False`;
a recorded target is erased on a successful unfollow. -/
theorem unfollow_target_spec_witness :
    (unfollow_target_account P7 I0 "t" st0 =
        ⟨{ st0 with fi := 1 }, some false, [.sleepShort], .normal⟩)
    ∧ ((unfollow_target_account P7 I0 "t"
          { st0 with followed := {"t"} }).st.followed = ({"t"} : Finset String).erase "t"
      ∧ (unfollow_target_account P7 I0 "t" { st0 with followed := {"t"} }).val = some true) :=
  ⟨(unfollow_target_spec P7 I0 "t" st0).1 (by decide),
   ((unfollow_target_spec P7 I0 "t" { st0 with followed := {"t"} }).2.1
      (by decide) "42" rfl).1 rfl⟩

/-! ## C5: the persistent messaged-users store -/

theorem charDigit_decChar (d : Nat) (h : d < 10) : charDigit (decChar d) = some d := by
  interval_cases d <;> rfl

theorem digitsOfChars_decChar (l : List Nat) (h : ∀ d ∈ l, d < 10) :
    digitsOfChars (l.map decChar) = some l := by
  induction l with
  | nil => rfl
  | cons a l ih =>
    have ha : charDigit (decChar a) = some a := charDigit_decChar a (h a (by simp))
    have hl := ih fun d hd => h d (by simp [hd])
    simp [digitsOfChars, ha, hl]

theorem pyStrOfNat_isEmpty (n : Nat) : (pyStrOfNat n).isEmpty = false := by
  by_cases h : n = 0
  · subst h; rfl
  · have hd : Nat.digits 10 n ≠ [] := Nat.digits_ne_nil_iff_ne_zero.2 h
    rw [Bool.eq_false_iff]
    intro hh
    have h2 := (String.isEmpty_iff _).1 hh
    simp only [pyStrOfNat, if_neg h] at h2
    have h3 : (Nat.digits 10 n).reverse.map decChar = [] := congrArg String.data h2
    simp [hd] at h3

/-- The decimal codec round-trips: parsing the rendering of a
nonnegative int recovers it, as `int(f"{user_id}")` does in Python. -/
theorem pyToInt_pyStrOfNat (n : Nat) : pyToInt (pyStrOfNat n) = some n := by
  have hne := pyStrOfNat_isEmpty n
  by_cases h : n = 0
  · subst h; rfl
  · have hdig : ∀ d ∈ (Nat.digits 10 n).reverse, d < 10 := fun d hd =>
      Nat.digits_lt_base (by norm_num) (List.mem_reverse.1 hd)
    have hdata : (pyStrOfNat n).data = (Nat.digits 10 n).reverse.map decChar := by
      simp [pyStrOfNat, if_neg h]
    simp only [pyToInt, hne, Bool.false_eq_true, if_false, hdata,
      digitsOfChars_decChar _ hdig, Option.map_some]
    simp [Nat.ofDigits_digits]

theorem recordAll_some (us : List Nat) (lines : List String) :
    recordAll (some lines) us = some (lines ++ us.map pyStrOfNat) := by
  induction us generalizing lines with
  | nil => simp [recordAll]
  | cons u us ih =>
    simp [recordAll, _save_messaged_user, ih]

theorem loadLines_map (ids : List Nat) :
    loadLines (ids.map pyStrOfNat) = some ids.toFinset := by
  induction ids with
  | nil => simp [loadLines]
  | cons u us ih =>
    simp [loadLines, pyStrOfNat_isEmpty, pyToInt_pyStrOfNat, ih]

/-- C5: recording any list of user ids through `_save_messaged_user`
(one appended line each, the file created on first write) and reloading
through `_load_messaged_users` yields exactly the set of recorded ids —
which is what suppresses repeat DMs after a restart — and loading a
missing file yields the empty set. -/
theorem messaged_store_roundtrip (ids : List Nat) :
    _load_messaged_users none = some ∅
    ∧ _load_messaged_users (recordAll none ids) = some ids.toFinset := by
  refine ⟨rfl, ?_⟩
  cases ids with
  | nil => rfl
  | cons u us =>
    have h : recordAll none (u :: us) = some ((u :: us).map pyStrOfNat) := by
      simp [recordAll, _save_messaged_user, recordAll_some]
    rw [h]
    exact loadLines_map _

/-! ## C4: per-item failure isolation -/

/-- A provider whose feed has two posts, the first of which fails to
like with an unclassified exception. -/
def P4 : Provider :=
  { P0 with
    user_medias := fun _ => .ok [⟨"p1", "a"⟩, ⟨"p2", "b"⟩],
    media_like := fun i => if i = "p1" then .error (.other "boom") else .ok () }

/-- C4 counterexample: in the feed pass an exception on one item is NOT
caught locally — liking the first post raises, the exception escapes the
pass (`exc` is set) and the second post is never processed (its like call
does not appear in the trace), contradicting the claim that a single
item's failure never aborts processing of its sibling items. -/
theorem feed_abort_counterexample :
    engage_feed_core P4 F0 I0 igLimits st0 =
        ⟨st0, none, [.userMedias 100 true, .mediaLike "p1" false], some (.other "boom")⟩
      ∧ countEv (likesPost "p2")
          (engage_feed_core P4 F0 I0 igLimits st0).trace = 0 := by
  constructor <;> decide

/-- C4 amended: only the story pass isolates per-item failures — a user
whose story fetch raises is skipped and the remaining users are still
processed, and with a successful `user_following` fetch no exception at
all escapes the story-pass body; in the feed and DM passes, by contrast,
a failing `media_like` or `direct_send` on one item aborts the remainder
of the pass, the exception escaping to the resilient wrapper. -/
theorem per_item_isolation_amended (P : Provider) (F : Nat → ℚ) (I : Nat → Nat)
    (L : String → Nat) (u : IgUser) (rest : List IgUser) (users : List IgUser)
    (p : Post) (prest : List Post) (s : St) (cnt lc cc c : Nat) (e : Exc)
    (uid : Nat) (uname : String) (drest : List (Nat × String)) :
    (P.user_stories u.pk = .error e → ¬ L "story_views" ≤ cnt →
      storiesOuter P F L (u :: rest) s cnt =
        ⟨(storiesOuter P F L rest s cnt).st, (storiesOuter P F L rest s cnt).cnt,
          .userStories u.pk false :: (storiesOuter P F L rest s cnt).trace⟩)
    ∧ (P.user_following = .ok users → (handle_stories_core P F L s).exc = none)
    ∧ (p.id ∉ s.liked → _within_limit L "likes" (lc : Int) = true →
        P.media_like p.id = .error e →
        feedLoop P F I L (p :: prest) s lc cc =
          ⟨s, lc, cc, [.mediaLike p.id false], some e⟩)
    ∧ (¬ (L "dms" ≤ c ∨ uid ∈ s.messaged) →
        P.direct_send ("Hi " ++ uname ++ ", thanks for connecting!") uid = .error e →
        dmLoop P L ((uid, uname) :: drest) s c =
          ⟨s, c, [.directSend ("Hi " ++ uname ++ ", thanks for connecting!") uid false],
            some e⟩) := by
  refine ⟨?_, ?_, ?_, ?_⟩
  · intro herr hcnt
    simp [storiesOuter, herr, hcnt]
  · intro hok
    simp [handle_stories_core, hok]
  · intro hl hw herr
    simp [feedLoop, hl, hw, herr]
  · intro hc herr
    simp [dmLoop, hc, herr]

/-- A provider whose every story fetch raises. -/
def PA : Provider := { P0 with user_stories := fun _ => .error (.other "x") }

/-- A provider whose every direct message raises. -/
def PD : Provider := { P0 with direct_send := fun _ _ => .error (.other "y") }

/-- Witness for C4 amended, at concrete inputs for each clause. -/
theorem per_item_isolation_amended_witness :
    (storiesOuter PA F0 igLimits [⟨"u1", "n1"⟩] st0 0 =
        ⟨(storiesOuter PA F0 igLimits [] st0 0).st,
         (storiesOuter PA F0 igLimits [] st0 0).cnt,
          .userStories "u1" false :: (storiesOuter PA F0 igLimits [] st0 0).trace⟩)
    ∧ (handle_stories_core P0 F0 igLimits st0).exc = none
    ∧ (feedLoop P4 F0 I0 igLimits [⟨"p1", "a"⟩] st0 0 0 =
        ⟨st0, 0, 0, [.mediaLike "p1" false], some (.other "boom")⟩)
    ∧ (dmLoop PD igLimits [(5, "bob")] st0 0 =
        ⟨st0, 0, [.directSend ("Hi " ++ "bob" ++ ", thanks for connecting!") 5 false],
          some (.other "y")⟩) :=
  ⟨(per_item_isolation_amended PA F0 I0 igLimits ⟨"u1", "n1"⟩ [] [] ⟨"p1", "a"⟩ []
      st0 0 0 0 0 (.other "x") 5 "bob" []).1 rfl (by decide),
   (per_item_isolation_amended P0 F0 I0 igLimits ⟨"u1", "n1"⟩ [] [] ⟨"p1", "a"⟩ []
      st0 0 0 0 0 (.other "x") 5 "bob" []).2.1 rfl,
   (per_item_isolation_amended P4 F0 I0 igLimits ⟨"u1", "n1"⟩ [] [] ⟨"p1", "a"⟩ []
      st0 0 0 0 0 (.other "boom") 5 "bob" []).2.2.1 (by decide) (by decide) rfl,
   (per_item_isolation_amended PD F0 I0 igLimits ⟨"u1", "n1"⟩ [] [] ⟨"p1", "a"⟩ []
      st0 0 0 0 0 (.other "y") 5 "bob" []).2.2.2 (by decide) rfl⟩

/-! ## C1: quota ceilings — counting infrastructure -/

theorem within_limit_nat (L : String → Nat) (a : String) (n : Nat) :
    _within_limit L a (n : Int) = decide (n < L a) := by
  simp [_within_limit]

/-- Events the story pass can emit. -/
def isStoryKind : Ev → Bool
  | .userStories _ _ => true
  | .storySeen _ _ _ => true
  | .storyLike _ _ => true
  | _ => false

/-- Events the feed loop can emit. -/
def isFeedKind : Ev → Bool
  | .mediaLike _ _ => true
  | .mediaComment _ _ _ => true
  | _ => false

/-- Events the DM loop can emit. -/
def isDmKind : Ev → Bool
  | .directSend _ _ _ => true
  | _ => false

/-- Events the follow/unfollow bodies can emit. -/
def isFollowKind : Ev → Bool
  | .resolveUser _ _ => true
  | .userFollow _ _ => true
  | .userUnfollow _ _ => true
  | _ => false

theorem countEv_zero_of_kind (k p : Ev → Bool) (t : List Ev)
    (hk : ∀ e ∈ t, k e = true) (hp : ∀ e, k e = true → p e = false) :
    countEv p t = 0 :=
  countEv_eq_zero _ _ fun e he => hp e (hk e he)

theorem storiesInner_shape (P : Provider) (F : Nat → ℚ) (L : String → Nat)
    (stories : List Story) (s : St) (cnt : Nat) :
    ∀ e ∈ (storiesInner P F L stories s cnt).trace, isStoryKind e = true := by
  induction stories generalizing s cnt with
  | nil => simp [storiesInner]
  | cons st rest ih =>
    by_cases hm : st.id ∈ s.viewed
    · simpa [storiesInner, hm] using ih s cnt
    · simp only [storiesInner, if_neg hm]
      cases hseen : P.story_seen st.pk with
      | error e => simp [isStoryKind]
      | ok _ =>
        by_cases hf : F s.fi < 7/10
        · simp only [hf, if_true]
          cases hlike : P.story_like st.id with
          | error e => simp [isStoryKind]
          | ok _ =>
            by_cases hw : _within_limit L "story_views" ((cnt + 1 : Nat) : Int) = true
            · simp only [hw, if_true]
              intro e he
              simp only [List.mem_cons] at he
              rcases he with rfl | rfl | h
              · simp [isStoryKind]
              · simp [isStoryKind]
              · exact ih _ _ e h
            · simp only [hw]
              simp [isStoryKind]
        · simp only [hf, if_false]
          by_cases hw : _within_limit L "story_views" ((cnt + 1 : Nat) : Int) = true
          · simp only [hw, if_true]
            intro e he
            simp only [List.mem_cons] at he
            rcases he with rfl | h
            · simp [isStoryKind]
            · exact ih _ _ e h
          · simp only [hw]
            simp [isStoryKind]

theorem storiesOuter_shape (P : Provider) (F : Nat → ℚ) (L : String → Nat)
    (us : List IgUser) (s : St) (cnt : Nat) :
    ∀ e ∈ (storiesOuter P F L us s cnt).trace, isStoryKind e = true := by
  induction us generalizing s cnt with
  | nil => simp [storiesOuter]
  | cons u rest ih =>
    by_cases hb : L "story_views" ≤ cnt
    · simp [storiesOuter, hb]
    · simp only [storiesOuter, if_neg hb]
      cases hus : P.user_stories u.pk with
      | error e =>
        intro e he
        simp only [List.mem_cons] at he
        rcases he with rfl | h
        · simp [isStoryKind]
        · exact ih _ _ e h
      | ok stories =>
        intro e he
        simp only [List.mem_cons, List.mem_append] at he
        rcases he with rfl | h | h
        · simp [isStoryKind]
        · exact storiesInner_shape P F L stories s cnt e h
        · exact ih _ _ e h

theorem commentStep_cases (P : Provider) (F : Nat → ℚ) (I : Nat → Nat)
    (L : String → Nat) (post : Post) (s : St) (cc : Nat) :
    (∃ s2, commentStep P F I L post s cc = .go s2 cc [])
    ∨ (∃ s2 t, commentStep P F I L post s cc =
          .go s2 (cc + 1) [.mediaComment post.id t true] ∧ cc < L "comments")
    ∨ (∃ s2 t ex, commentStep P F I L post s cc =
          .halt s2 [.mediaComment post.id t false] ex ∧ cc < L "comments") := by
  by_cases hg : _within_limit L "comments" (cc : Int) = true ∧ post.id ∉ s.commented
  · have hlt : cc < L "comments" := by
      have h1 := hg.1
      rw [within_limit_nat] at h1
      exact of_decide_eq_true h1
    by_cases hf : F s.fi < 3/10
    · cases hmc : P.media_comment post.id (comments3.getD (I s.ii % 3) "") with
      | error ex =>
        right; right
        refine ⟨{ s with fi := s.fi + 1, ii := s.ii + 1 }, comments3.getD (I s.ii % 3) "", ex, ?_, hlt⟩
        simp only [commentStep, if_pos hg, if_pos hf]
        rw [hmc]
      | ok u =>
        right; left
        refine ⟨{ s with commented := insert post.id s.commented, fi := s.fi + 1, ii := s.ii + 1 }, comments3.getD (I s.ii % 3) "", ?_, hlt⟩
        simp only [commentStep, if_pos hg, if_pos hf]
        rw [hmc]
    · left
      refine ⟨{ s with fi := s.fi + 1 }, ?_⟩
      simp only [commentStep, if_pos hg, if_neg hf]
  · left
    exact ⟨s, by simp only [commentStep, if_neg hg]⟩

theorem commentStep_evs_shape (P : Provider) (F : Nat → ℚ) (I : Nat → Nat)
    (L : String → Nat) (post : Post) (s : St) (cc : Nat) :
    (∀ s2 cc2 evs, commentStep P F I L post s cc = .go s2 cc2 evs →
      ∀ e ∈ evs, isFeedKind e = true)
    ∧ (∀ s2 evs ex, commentStep P F I L post s cc = .halt s2 evs ex →
      ∀ e ∈ evs, isFeedKind e = true) := by
  rcases commentStep_cases P F I L post s cc with ⟨s2, heq⟩ | ⟨s2, t, heq, -⟩ |
    ⟨s2, t, ex, heq, -⟩ <;>
    constructor <;> intro a b c h <;> rw [heq] at h <;>
      first
        | (cases h; simp [isFeedKind])
        | exact absurd h (by simp)

theorem feedLoop_shape (P : Provider) (F : Nat → ℚ) (I : Nat → Nat)
    (L : String → Nat) (feed : List Post) (s : St) (lc cc : Nat) :
    ∀ e ∈ (feedLoop P F I L feed s lc cc).trace, isFeedKind e = true := by
  induction feed generalizing s lc cc with
  | nil => simp [feedLoop]
  | cons post rest ih =>
    by_cases hm : post.id ∈ s.liked
    · simpa [feedLoop, hm] using ih s lc cc
    · simp only [feedLoop, if_neg hm]
      by_cases hw : _within_limit L "likes" (lc : Int) = true
      · simp only [hw, if_true]
        cases hlike : P.media_like post.id with
        | error e => simp [isFeedKind]
        | ok _ =>
          cases hcs : commentStep P F I L post
              { s with liked := insert post.id s.liked } cc with
          | halt s2 evs ex =>
            intro e he
            simp only [List.mem_cons] at he
            rcases he with rfl | h
            · simp [isFeedKind]
            · exact (commentStep_evs_shape P F I L post _ cc).2 _ _ _ hcs e h
          | go s2 cc2 evs =>
            intro e he
            simp only [List.mem_cons, List.mem_append] at he
            rcases he with rfl | h | h
            · simp [isFeedKind]
            · exact (commentStep_evs_shape P F I L post _ cc).1 _ _ _ hcs e h
            · exact ih _ _ _ e h
      · simp only [hw]
        simp only [Bool.false_eq_true, if_false]
        cases hcs : commentStep P F I L post s cc with
        | halt s2 evs ex =>
          intro e he
          exact (commentStep_evs_shape P F I L post s cc).2 _ _ _ hcs e he
        | go s2 cc2 evs =>
          intro e he
          simp only [List.mem_append] at he
          rcases he with h | h
          · exact (commentStep_evs_shape P F I L post s cc).1 _ _ _ hcs e h
          · exact ih _ _ _ e h

theorem dmLoop_shape (P : Provider) (L : String → Nat)
    (fols : List (Nat × String)) (s : St) (c : Nat) :
    ∀ e ∈ (dmLoop P L fols s c).trace, isDmKind e = true := by
  induction fols generalizing s c with
  | nil => simp [dmLoop]
  | cons f rest ih =>
    rcases f with ⟨uid, uname⟩
    by_cases hs : L "dms" ≤ c ∨ uid ∈ s.messaged
    · simpa [dmLoop, hs] using ih s c
    · simp only [dmLoop, if_neg hs]
      cases hds : P.direct_send ("Hi " ++ uname ++ ", thanks for connecting!") uid with
      | error e => simp [isDmKind]
      | ok _ =>
        intro e he
        simp only [List.mem_cons] at he
        rcases he with rfl | h
        · simp [isDmKind]
        · exact ih _ _ e h

theorem follow_core_shape (P : Provider) (target : String) (s : St) :
    ∀ e ∈ (follow_core P target s).trace, isFollowKind e = true := by
  unfold follow_core
  split
  · simp
  · split
    · simp [isFollowKind]
    · split <;> simp [isFollowKind]

theorem unfollow_core_shape (P : Provider) (target : String) (s : St) :
    ∀ e ∈ (unfollow_core P target s).trace, isFollowKind e = true := by
  unfold unfollow_core
  split
  · simp
  · split
    · simp [isFollowKind]
    · split <;> simp [isFollowKind]

theorem storiesInner_count (P : Provider) (F : Nat → ℚ) (L : String → Nat)
    (stories : List Story) (s : St) (cnt : Nat) (h : cnt < L "story_views") :
    (storiesInner P F L stories s cnt).cnt ≤ L "story_views"
    ∧ cnt ≤ (storiesInner P F L stories s cnt).cnt
    ∧ countEv isSeenOk (storiesInner P F L stories s cnt).trace ≤
        (storiesInner P F L stories s cnt).cnt - cnt + 1 := by
  induction stories generalizing s cnt with
  | nil =>
    simp only [storiesInner, countEv_nil]
    omega
  | cons st rest ih =>
    by_cases hm : st.id ∈ s.viewed
    · simp only [storiesInner, if_pos hm]
      exact ih s cnt h
    · simp only [storiesInner, if_neg hm]
      cases hseen : P.story_seen st.pk with
      | error e =>
        simp [countEv_cons, countEv_nil, isSeenOk]
        omega
      | ok _ =>
        by_cases hf : F s.fi < 7/10
        · simp only [hf, if_true]
          cases hlike : P.story_like st.id with
          | error e =>
            simp [countEv_cons, countEv_nil, isSeenOk]
            omega
          | ok _ =>
            rw [within_limit_nat]
            by_cases hw : cnt + 1 < L "story_views"
            · rw [if_pos (by simp [hw])]
              have := ih { s with viewed := insert st.id s.viewed, fi := s.fi + 1 }
                (cnt + 1) hw
              simp only [countEv_cons, isSeenOk] at this ⊢
              simp at this ⊢
              omega
            · rw [if_neg (by simp [hw])]
              simp [countEv_cons, countEv_nil, isSeenOk]
              omega
        · simp only [hf, if_false]
          rw [within_limit_nat]
          by_cases hw : cnt + 1 < L "story_views"
          · rw [if_pos (by simp [hw])]
            have := ih { s with viewed := insert st.id s.viewed, fi := s.fi + 1 }
              (cnt + 1) hw
            simp only [countEv_cons, isSeenOk] at this ⊢
            simp at this ⊢
            omega
          · rw [if_neg (by simp [hw])]
            simp [countEv_cons, countEv_nil, isSeenOk]
            omega

theorem storiesOuter_count (P : Provider) (F : Nat → ℚ) (L : String → Nat)
    (us : List IgUser) (s : St) (cnt : Nat) (h : cnt ≤ L "story_views") :
    (storiesOuter P F L us s cnt).cnt ≤ L "story_views"
    ∧ cnt ≤ (storiesOuter P F L us s cnt).cnt
    ∧ countEv isSeenOk (storiesOuter P F L us s cnt).trace ≤
        (storiesOuter P F L us s cnt).cnt - cnt + us.length := by
  induction us generalizing s cnt with
  | nil =>
    simp only [storiesOuter, countEv_nil, List.length_nil]
    omega
  | cons u rest ih =>
    by_cases hb : L "story_views" ≤ cnt
    · simp only [storiesOuter, if_pos hb, countEv_nil]
      omega
    · simp only [storiesOuter, if_neg hb]
      cases hus : P.user_stories u.pk with
      | error e =>
        have := ih s cnt h
        simp only [countEv_cons, isSeenOk, List.length_cons] at this ⊢
        simp at this ⊢
        omega
      | ok stories =>
        have hin := storiesInner_count P F L stories s cnt (by omega)
        have hout := ih (storiesInner P F L stories s cnt).st
          (storiesInner P F L stories s cnt).cnt hin.1
        simp only [countEv_cons, countEv_append, isSeenOk, List.length_cons] at hout ⊢
        simp at hout ⊢
        omega

theorem storiesOuter_at_ceiling (P : Provider) (F : Nat → ℚ) (L : String → Nat)
    (us : List IgUser) (s : St) :
    storiesOuter P F L us s (L "story_views") = ⟨s, L "story_views", []⟩ := by
  cases us with
  | nil => rfl
  | cons u rest => simp [storiesOuter]

theorem feedLoop_like_count (P : Provider) (F : Nat → ℚ) (I : Nat → Nat)
    (L : String → Nat) (feed : List Post) (s : St) (lc cc : Nat) :
    countEv isLikeEv (feedLoop P F I L feed s lc cc).trace ≤ L "likes" - lc := by
  induction feed generalizing s lc cc with
  | nil => simp [feedLoop, countEv_nil]
  | cons post rest ih =>
    by_cases hm : post.id ∈ s.liked
    · simp only [feedLoop, if_pos hm]
      exact ih s lc cc
    · simp only [feedLoop, if_neg hm]
      by_cases hw : _within_limit L "likes" (lc : Int) = true
      · have hlc : lc < L "likes" := by
          rw [within_limit_nat] at hw
          exact of_decide_eq_true hw
        simp only [hw, if_true]
        cases hml : P.media_like post.id with
        | error e =>
          simp [countEv_cons, countEv_nil, isLikeEv]
          omega
        | ok _ =>
          rcases commentStep_cases P F I L post { s with liked := insert post.id s.liked } cc
            with ⟨s2, hcs⟩ | ⟨s2, t, hcs, hltc⟩ | ⟨s2, t, ex, hcs, hltc⟩ <;> rw [hcs]
          · have := ih s2 (lc + 1) cc
            simp only [countEv_cons, countEv_append, countEv_nil, isLikeEv] at this ⊢
            simp at this ⊢
            omega
          · have := ih s2 (lc + 1) (cc + 1)
            simp only [countEv_cons, countEv_append, countEv_nil, isLikeEv] at this ⊢
            simp at this ⊢
            omega
          · simp [countEv_cons, countEv_nil, isLikeEv]
            omega
      · simp only [hw]
        simp only [Bool.false_eq_true, if_false]
        rcases commentStep_cases P F I L post s cc
          with ⟨s2, hcs⟩ | ⟨s2, t, hcs, hltc⟩ | ⟨s2, t, ex, hcs, hltc⟩ <;> rw [hcs]
        · have := ih s2 lc cc
          simp only [countEv_append, countEv_nil] at this ⊢
          simp at this ⊢
          omega
        · have := ih s2 lc (cc + 1)
          simp only [countEv_cons, countEv_append, countEv_nil, isLikeEv] at this ⊢
          simp at this ⊢
          omega
        · simp [countEv_cons, countEv_nil, isLikeEv]

theorem feedLoop_comment_count (P : Provider) (F : Nat → ℚ) (I : Nat → Nat)
    (L : String → Nat) (feed : List Post) (s : St) (lc cc : Nat) :
    countEv isCommentEv (feedLoop P F I L feed s lc cc).trace ≤ L "comments" - cc := by
  induction feed generalizing s lc cc with
  | nil => simp [feedLoop, countEv_nil]
  | cons post rest ih =>
    by_cases hm : post.id ∈ s.liked
    · simp only [feedLoop, if_pos hm]
      exact ih s lc cc
    · simp only [feedLoop, if_neg hm]
      by_cases hw : _within_limit L "likes" (lc : Int) = true
      · simp only [hw, if_true]
        cases hml : P.media_like post.id with
        | error e => simp [countEv_cons, countEv_nil, isCommentEv]
        | ok _ =>
          rcases commentStep_cases P F I L post { s with liked := insert post.id s.liked } cc
            with ⟨s2, hcs⟩ | ⟨s2, t, hcs, hltc⟩ | ⟨s2, t, ex, hcs, hltc⟩ <;> rw [hcs]
          · have := ih s2 (lc + 1) cc
            simp only [countEv_cons, countEv_append, countEv_nil, isCommentEv] at this ⊢
            simp at this ⊢
            omega
          · have := ih s2 (lc + 1) (cc + 1)
            simp only [countEv_cons, countEv_append, countEv_nil, isCommentEv] at this ⊢
            simp at this ⊢
            omega
          · simp [countEv_cons, countEv_nil, isCommentEv]
            omega
      · simp only [hw]
        simp only [Bool.false_eq_true, if_false]
        rcases commentStep_cases P F I L post s cc
          with ⟨s2, hcs⟩ | ⟨s2, t, hcs, hltc⟩ | ⟨s2, t, ex, hcs, hltc⟩ <;> rw [hcs]
        · have := ih s2 lc cc
          simp only [countEv_append, countEv_nil] at this ⊢
          simp at this ⊢
          omega
        · have := ih s2 lc (cc + 1)
          simp only [countEv_cons, countEv_append, countEv_nil, isCommentEv] at this ⊢
          simp at this ⊢
          omega
        · simp [countEv_cons, countEv_nil, isCommentEv]
          omega

theorem dmLoop_count (P : Provider) (L : String → Nat)
    (fols : List (Nat × String)) (s : St) (c : Nat) :
    countEv isDmEv (dmLoop P L fols s c).trace ≤ L "dms" - c := by
  induction fols generalizing s c with
  | nil => simp [dmLoop, countEv_nil]
  | cons f rest ih =>
    rcases f with ⟨uid, uname⟩
    by_cases hs : L "dms" ≤ c ∨ uid ∈ s.messaged
    · simp only [dmLoop, if_pos hs]
      exact ih s c
    · have hc : c < L "dms" := by omega
      simp only [dmLoop, if_neg hs]
      cases hds : P.direct_send ("Hi " ++ uname ++ ", thanks for connecting!") uid with
      | error e =>
        simp [countEv_cons, countEv_nil, isDmEv]
        omega
      | ok _ =>
        have := ih { s with messaged := insert uid s.messaged, file := some (s.file.getD [] ++ [Nat.repr uid]) } (c + 1)
        simp only [countEv_cons, isDmEv] at this ⊢
        simp at this ⊢
        omega

/-- Predicates false on every event the wrapper itself appends. -/
def ignoresWrapEv (p : Ev → Bool) : Prop :=
  p .sleepShort = false ∧ (∀ n, p (.sleepSecs n) = false) ∧ ∀ o, p (.login o) = false

theorem safe_action_count (I : Nat → Nat) (lr : Except Exc Unit) (b : BodyOut)
    (p : Ev → Bool) (hp : ignoresWrapEv p) :
    countEv p (safe_action I lr b).trace = countEv p b.trace := by
  obtain ⟨hp1, hp2, hp3⟩ := hp
  rcases b with ⟨s, v, tr, exc⟩
  cases exc with
  | none => simp [safe_action, countEv_append, countEv_cons, countEv_nil, hp1]
  | some e =>
    cases e with
    | clientError =>
      simp [safe_action, _handle_retry, countEv_append, countEv_cons, countEv_nil, hp2]
    | clientConnectionError =>
      simp [safe_action, _handle_retry, countEv_append, countEv_cons, countEv_nil, hp2]
    | challengeRequired => simp [safe_action]
    | loginRequired =>
      cases lr with
      | ok u => simp [safe_action, countEv_append, countEv_cons, countEv_nil, hp3]
      | error le =>
        cases le <;>
          simp [safe_action, countEv_append, countEv_cons, countEv_nil, hp3]
    | badPassword => simp [safe_action]
    | other m => simp [safe_action]

theorem ignoresWrapEv_isSeenOk : ignoresWrapEv isSeenOk := by
  refine ⟨rfl, fun n => rfl, fun o => rfl⟩

theorem ignoresWrapEv_isLikeEv : ignoresWrapEv isLikeEv := by
  refine ⟨rfl, fun n => rfl, fun o => rfl⟩

theorem ignoresWrapEv_isCommentEv : ignoresWrapEv isCommentEv := by
  refine ⟨rfl, fun n => rfl, fun o => rfl⟩

theorem ignoresWrapEv_isDmEv : ignoresWrapEv isDmEv := by
  refine ⟨rfl, fun n => rfl, fun o => rfl⟩

theorem ignoresWrapEv_isFollowEv : ignoresWrapEv isFollowEv := by
  refine ⟨rfl, fun n => rfl, fun o => rfl⟩

theorem handle_stories_count_zero (P : Provider) (F : Nat → ℚ) (I : Nat → Nat)
    (L : String → Nat) (s : St) (p : Ev → Bool) (hp : ignoresWrapEv p)
    (hcross : ∀ e, isStoryKind e = true → p e = false)
    (hfol : ∀ o, p (.userFollowing o) = false) :
    countEv p (handle_stories P F I L s).trace = 0 := by
  rw [handle_stories, safe_action_count _ _ _ _ hp]
  unfold handle_stories_core
  cases huf : P.user_following with
  | error e => simp [countEv_cons, countEv_nil, hfol]
  | ok users =>
    simp only [countEv_cons, hfol]
    simp only [Bool.false_eq_true, if_false, Nat.zero_add]
    exact countEv_zero_of_kind isStoryKind p _ (storiesOuter_shape P F L users s 0) hcross

theorem engage_feed_count_zero (P : Provider) (F : Nat → ℚ) (I : Nat → Nat)
    (L : String → Nat) (s : St) (p : Ev → Bool) (hp : ignoresWrapEv p)
    (hcross : ∀ e, isFeedKind e = true → p e = false)
    (hum : ∀ n o, p (.userMedias n o) = false) :
    countEv p (engage_feed P F I L s).trace = 0 := by
  rw [engage_feed, safe_action_count _ _ _ _ hp]
  unfold engage_feed_core
  cases huf : P.user_medias (L "likes") with
  | error e => simp [countEv_cons, countEv_nil, hum]
  | ok feed =>
    simp only [countEv_cons, hum]
    simp only [Bool.false_eq_true, if_false, Nat.zero_add]
    exact countEv_zero_of_kind isFeedKind p _ (feedLoop_shape P F I L feed s 0 0) hcross

theorem dm_pass_count_zero (P : Provider) (I : Nat → Nat) (s : St)
    (p : Ev → Bool) (hp : ignoresWrapEv p)
    (hcross : ∀ e, isDmKind e = true → p e = false)
    (huf : ∀ o, p (.userFollowers o) = false) :
    countEv p (dm_new_followers P I s).trace = 0 := by
  rw [dm_new_followers, safe_action_count _ _ _ _ hp]
  unfold dm_new_followers_core
  cases h : P.user_followers with
  | error e => simp [countEv_cons, countEv_nil, huf]
  | ok fols =>
    simp only [countEv_cons, huf]
    simp only [Bool.false_eq_true, if_false, Nat.zero_add]
    exact countEv_zero_of_kind isDmKind p _ (dmLoop_shape P igLimits fols s 0) hcross

theorem follow_pass_count_zero (P : Provider) (I : Nat → Nat) (target : String)
    (s : St) (p : Ev → Bool) (hp : ignoresWrapEv p)
    (hcross : ∀ e, isFollowKind e = true → p e = false) :
    countEv p (follow_target_account P I target s).trace = 0
    ∧ countEv p (unfollow_target_account P I target s).trace = 0 := by
  constructor
  · rw [follow_target_account, safe_action_count _ _ _ _ hp]
    exact countEv_zero_of_kind isFollowKind p _ (follow_core_shape P target s) hcross
  · rw [unfollow_target_account, safe_action_count _ _ _ _ hp]
    exact countEv_zero_of_kind isFollowKind p _ (unfollow_core_shape P target s) hcross

theorem engage_feed_like_bound (P : Provider) (F : Nat → ℚ) (I : Nat → Nat)
    (L : String → Nat) (s : St) :
    countEv isLikeEv (engage_feed P F I L s).trace ≤ L "likes" := by
  rw [engage_feed, safe_action_count _ _ _ _ ignoresWrapEv_isLikeEv]
  unfold engage_feed_core
  cases huf : P.user_medias (L "likes") with
  | error e => simp [countEv_cons, countEv_nil, isLikeEv]
  | ok feed =>
    have := feedLoop_like_count P F I L feed s 0 0
    simp only [countEv_cons, isLikeEv] at this ⊢
    simp at this ⊢
    omega

theorem engage_feed_comment_bound (P : Provider) (F : Nat → ℚ) (I : Nat → Nat)
    (L : String → Nat) (s : St) :
    countEv isCommentEv (engage_feed P F I L s).trace ≤ L "comments" := by
  rw [engage_feed, safe_action_count _ _ _ _ ignoresWrapEv_isCommentEv]
  unfold engage_feed_core
  cases huf : P.user_medias (L "likes") with
  | error e => simp [countEv_cons, countEv_nil, isCommentEv]
  | ok feed =>
    have := feedLoop_comment_count P F I L feed s 0 0
    simp only [countEv_cons, isCommentEv] at this ⊢
    simp at this ⊢
    omega

theorem dm_pass_bound (P : Provider) (I : Nat → Nat) (s : St) :
    countEv isDmEv (dm_new_followers P I s).trace ≤ 20 := by
  rw [dm_new_followers, safe_action_count _ _ _ _ ignoresWrapEv_isDmEv]
  unfold dm_new_followers_core
  cases huf : P.user_followers with
  | error e => simp [countEv_cons, countEv_nil, isDmEv]
  | ok fols =>
    have := dmLoop_count P igLimits fols s 0
    simp only [countEv_cons, isDmEv] at this ⊢
    simp only [igLimits] at this
    simp at this ⊢
    omega

theorem stories_pass_seen_bound (P : Provider) (F : Nat → ℚ) (I : Nat → Nat)
    (L : String → Nat) (s : St) (users : List IgUser)
    (h : P.user_following = .ok users) :
    countEv isSeenOk (handle_stories P F I L s).trace ≤
      L "story_views" + users.length := by
  rw [handle_stories, safe_action_count _ _ _ _ ignoresWrapEv_isSeenOk]
  unfold handle_stories_core
  rw [h]
  have := storiesOuter_count P F L users s 0 (Nat.zero_le _)
  simp only [countEv_cons, isSeenOk] at this ⊢
  simp at this ⊢
  omega

theorem follow_pass_bound (P : Provider) (I : Nat → Nat) (target : String) (s : St) :
    countEv isFollowEv (follow_target_account P I target s).trace ≤ 1
    ∧ countEv isFollowEv (unfollow_target_account P I target s).trace ≤ 1 := by
  constructor
  · rw [follow_target_account, safe_action_count _ _ _ _ ignoresWrapEv_isFollowEv]
    unfold follow_core
    split
    · simp [countEv_nil]
    · split
      · simp [countEv_cons, countEv_nil, isFollowEv]
      · split <;> simp [countEv_cons, countEv_nil, isFollowEv]
  · rw [unfollow_target_account, safe_action_count _ _ _ _ ignoresWrapEv_isFollowEv]
    unfold unfollow_core
    split
    · simp [countEv_nil]
    · split
      · simp [countEv_cons, countEv_nil, isFollowEv]
      · split <;> simp [countEv_cons, countEv_nil, isFollowEv]

theorem ig_cycle_count_le (P : Provider) (F : Nat → ℚ) (I : Nat → Nat) (s : St)
    (p : Ev → Bool) (a b c : Nat)
    (h1 : countEv p (handle_stories P F I igLimits s).trace ≤ a)
    (h2 : ∀ s2, countEv p (engage_feed P F I igLimits s2).trace ≤ b)
    (h3 : ∀ s3, countEv p (dm_new_followers P I s3).trace ≤ c) :
    countEv p (ig_execute_cycle P F I s).trace ≤ a + b + c := by
  simp only [ig_execute_cycle]
  cases hs1 : (handle_stories P F I igLimits s).stop with
  | normal =>
    cases hs2 : (engage_feed P F I igLimits (handle_stories P F I igLimits s).st).stop with
    | normal =>
      simp only [countEv_append]
      have := h2 (handle_stories P F I igLimits s).st
      have := h3 (engage_feed P F I igLimits (handle_stories P F I igLimits s).st).st
      omega
    | exited n =>
      simp only [countEv_append]
      have := h2 (handle_stories P F I igLimits s).st
      omega
    | raised e =>
      simp only [countEv_append]
      have := h2 (handle_stories P F I igLimits s).st
      omega
  | exited n => simpa using Nat.le_trans h1 (by omega)
  | raised e => simpa using Nat.le_trans h1 (by omega)

theorem bot_cycle_count_le (P : Provider) (F : Nat → ℚ) (I : Nat → Nat)
    (target : String) (s : St) (p : Ev → Bool) (hp : ignoresWrapEv p) (a b c d : Nat)
    (h1 : countEv p (handle_stories P F I botLimits s).trace ≤ a)
    (h2 : ∀ s2, countEv p (engage_feed P F I botLimits s2).trace ≤ b)
    (h3 : ∀ s3, countEv p (follow_target_account P I target s3).trace ≤ c)
    (h4 : ∀ s4, countEv p (unfollow_target_account P I target s4).trace ≤ d) :
    countEv p (bot_execute_cycle P F I target s).trace ≤ a + b + c + d := by
  obtain ⟨hp1, hp2, hp3⟩ := hp
  simp only [bot_execute_cycle]
  generalize hw1 : handle_stories P F I botLimits s = w1
  rw [hw1] at h1
  cases hs1 : w1.stop with
  | normal =>
    generalize hw2 : engage_feed P F I botLimits w1.st = w2
    have hb := h2 w1.st
    rw [hw2] at hb
    cases hs2 : w2.stop with
    | normal =>
      generalize hw3 : follow_target_account P I target w2.st = w3
      have hc := h3 w2.st
      rw [hw3] at hc
      cases hs3 : w3.stop with
      | normal =>
        by_cases hv : w3.val = some true
        · rw [if_pos hv]
          have hd := h4 ⟨w3.st.viewed, w3.st.liked, w3.st.commented, w3.st.followed, w3.st.messaged, w3.st.file, w3.st.fi, w3.st.ii + 1⟩
          simp only [countEv_append, countEv_cons, hp2]
          simp only [Bool.false_eq_true, if_false]
          omega
        · rw [if_neg hv]
          simp only [countEv_append]
          omega
      | exited n =>
        simp only [countEv_append]
        omega
      | raised e =>
        simp only [countEv_append]
        omega
    | exited n =>
      simp only [countEv_append]
      omega
    | raised e =>
      simp only [countEv_append]
      omega
  | exited n => simpa using Nat.le_trans h1 (by omega)
  | raised e => simpa using Nat.le_trans h1 (by omega)

/-- C1 amended: per-category, per-cycle bounds as the code actually
enforces them.  For likes, comments, DMs and follows, every provider call
attempt in the category (successful or not) is bounded by the configured
ceiling, in both variants.  For story views the recorded counter never
exceeds 200, but successful `story_seen` calls are only bounded by
200 plus one per followed account, because a story whose subsequent
`story_like` raises has been seen without being counted.  And a counter
that has reached its ceiling shuts the category down: entered at the
ceiling, the story pass attempts nothing, the feed loop attempts no like
(at 100) and no comment (at 40), and the DM loop attempts no send (at
20). -/
theorem quota_ceilings_amended (P : Provider) (F : Nat → ℚ) (I : Nat → Nat)
    (target : String) (s : St) (users : List IgUser) (feed : List Post)
    (fols : List (Nat × String)) (lc cc : Nat) :
    (countEv isLikeEv (ig_execute_cycle P F I s).trace ≤ 100
      ∧ countEv isCommentEv (ig_execute_cycle P F I s).trace ≤ 40
      ∧ countEv isDmEv (ig_execute_cycle P F I s).trace ≤ 20
      ∧ countEv isLikeEv (bot_execute_cycle P F I target s).trace ≤ 100
      ∧ countEv isCommentEv (bot_execute_cycle P F I target s).trace ≤ 40
      ∧ countEv isFollowEv (bot_execute_cycle P F I target s).trace ≤ 10)
    ∧ ((storiesOuter P F igLimits users s 0).cnt ≤ 200
      ∧ (P.user_following = .ok users →
          countEv isSeenOk (ig_execute_cycle P F I s).trace ≤ 200 + users.length))
    ∧ (storiesOuter P F igLimits users s 200 = ⟨s, 200, []⟩
      ∧ countEv isLikeEv (feedLoop P F I igLimits feed s 100 cc).trace = 0
      ∧ countEv isCommentEv (feedLoop P F I igLimits feed s lc 40).trace = 0
      ∧ countEv isDmEv (dmLoop P igLimits fols s 20).trace = 0) := by
  refine ⟨⟨?_, ?_, ?_, ?_, ?_, ?_⟩, ⟨?_, ?_⟩, ?_, ?_, ?_, ?_⟩
  · have := ig_cycle_count_le P F I s isLikeEv 0 100 0
      (Nat.le_of_eq (handle_stories_count_zero P F I igLimits s isLikeEv
        ignoresWrapEv_isLikeEv
        (fun e h => by cases e <;> simp_all [isStoryKind, isLikeEv]) (fun o => rfl)))
      (fun s2 => engage_feed_like_bound P F I igLimits s2)
      (fun s3 => Nat.le_of_eq (dm_pass_count_zero P I s3 isLikeEv
        ignoresWrapEv_isLikeEv
        (fun e h => by cases e <;> simp_all [isDmKind, isLikeEv]) (fun o => rfl)))
    simpa [igLimits] using this
  · have := ig_cycle_count_le P F I s isCommentEv 0 40 0
      (Nat.le_of_eq (handle_stories_count_zero P F I igLimits s isCommentEv
        ignoresWrapEv_isCommentEv
        (fun e h => by cases e <;> simp_all [isStoryKind, isCommentEv]) (fun o => rfl)))
      (fun s2 => engage_feed_comment_bound P F I igLimits s2)
      (fun s3 => Nat.le_of_eq (dm_pass_count_zero P I s3 isCommentEv
        ignoresWrapEv_isCommentEv
        (fun e h => by cases e <;> simp_all [isDmKind, isCommentEv]) (fun o => rfl)))
    simpa [igLimits] using this
  · have := ig_cycle_count_le P F I s isDmEv 0 0 20
      (Nat.le_of_eq (handle_stories_count_zero P F I igLimits s isDmEv
        ignoresWrapEv_isDmEv
        (fun e h => by cases e <;> simp_all [isStoryKind, isDmEv]) (fun o => rfl)))
      (fun s2 => Nat.le_of_eq (engage_feed_count_zero P F I igLimits s2 isDmEv
        ignoresWrapEv_isDmEv
        (fun e h => by cases e <;> simp_all [isFeedKind, isDmEv]) (fun n o => rfl)))
      (fun s3 => dm_pass_bound P I s3)
    simpa using this
  · have := bot_cycle_count_le P F I target s isLikeEv ignoresWrapEv_isLikeEv 0 100 0 0
      (Nat.le_of_eq (handle_stories_count_zero P F I botLimits s isLikeEv
        ignoresWrapEv_isLikeEv
        (fun e h => by cases e <;> simp_all [isStoryKind, isLikeEv]) (fun o => rfl)))
      (fun s2 => engage_feed_like_bound P F I botLimits s2)
      (fun s3 => Nat.le_of_eq ((follow_pass_count_zero P I target s3 isLikeEv
        ignoresWrapEv_isLikeEv
        (fun e h => by cases e <;> simp_all [isFollowKind, isLikeEv])).1))
      (fun s4 => Nat.le_of_eq ((follow_pass_count_zero P I target s4 isLikeEv
        ignoresWrapEv_isLikeEv
        (fun e h => by cases e <;> simp_all [isFollowKind, isLikeEv])).2))
    simpa [botLimits] using this
  · have := bot_cycle_count_le P F I target s isCommentEv ignoresWrapEv_isCommentEv 0 40 0 0
      (Nat.le_of_eq (handle_stories_count_zero P F I botLimits s isCommentEv
        ignoresWrapEv_isCommentEv
        (fun e h => by cases e <;> simp_all [isStoryKind, isCommentEv]) (fun o => rfl)))
      (fun s2 => engage_feed_comment_bound P F I botLimits s2)
      (fun s3 => Nat.le_of_eq ((follow_pass_count_zero P I target s3 isCommentEv
        ignoresWrapEv_isCommentEv
        (fun e h => by cases e <;> simp_all [isFollowKind, isCommentEv])).1))
      (fun s4 => Nat.le_of_eq ((follow_pass_count_zero P I target s4 isCommentEv
        ignoresWrapEv_isCommentEv
        (fun e h => by cases e <;> simp_all [isFollowKind, isCommentEv])).2))
    simpa [botLimits] using this
  · have := bot_cycle_count_le P F I target s isFollowEv ignoresWrapEv_isFollowEv 0 0 1 1
      (Nat.le_of_eq (handle_stories_count_zero P F I botLimits s isFollowEv
        ignoresWrapEv_isFollowEv
        (fun e h => by cases e <;> simp_all [isStoryKind, isFollowEv]) (fun o => rfl)))
      (fun s2 => Nat.le_of_eq (engage_feed_count_zero P F I botLimits s2 isFollowEv
        ignoresWrapEv_isFollowEv
        (fun e h => by cases e <;> simp_all [isFeedKind, isFollowEv]) (fun n o => rfl)))
      (fun s3 => (follow_pass_bound P I target s3).1)
      (fun s4 => (follow_pass_bound P I target s4).2)
    omega
  · exact (storiesOuter_count P F igLimits users s 0 (by simp [igLimits])).1
  · intro h
    have := ig_cycle_count_le P F I s isSeenOk (200 + users.length) 0 0
      (by simpa [igLimits] using stories_pass_seen_bound P F I igLimits s users h)
      (fun s2 => Nat.le_of_eq (engage_feed_count_zero P F I igLimits s2 isSeenOk
        ignoresWrapEv_isSeenOk
        (fun e he => by cases e <;> simp_all [isFeedKind, isSeenOk]) (fun n o => rfl)))
      (fun s3 => Nat.le_of_eq (dm_pass_count_zero P I s3 isSeenOk
        ignoresWrapEv_isSeenOk
        (fun e he => by cases e <;> simp_all [isDmKind, isSeenOk]) (fun o => rfl)))
    omega
  · exact storiesOuter_at_ceiling P F igLimits users s
  · have := feedLoop_like_count P F I igLimits feed s 100 cc
    simpa [igLimits] using this
  · have := feedLoop_comment_count P F I igLimits feed s lc 40
    simpa [igLimits] using this
  · have := dmLoop_count P igLimits fols s 20
    simpa [igLimits] using this

/-- Witness for C1 amended at a concrete run. -/
theorem quota_ceilings_amended_witness :
    countEv isSeenOk (ig_execute_cycle P0 F0 I0 st0).trace ≤
      200 + ([] : List IgUser).length :=
  (quota_ceilings_amended P0 F0 I0 "t" st0 [] [] [] 0 0).2.1.2 rfl

/-- A float oracle that always draws 0 (all probabilistic gates pass). -/
def FZ : Nat → ℚ := fun _ => 0

/-- 201 distinct followed accounts, named by their decimal index. -/
def users201 : List IgUser := (List.range 201).map fun k => ⟨pyStrOfNat k, pyStrOfNat k⟩

/-- The adversarial provider for the C1 counterexample: every account has
one story, every `story_seen` succeeds, every `story_like` raises. -/
def P201 : Provider :=
  { P0 with
    user_following := .ok users201,
    user_stories := fun pk => .ok [⟨pk, pk⟩],
    story_like := fun _ => .error (.other "boom") }

theorem P201_outer_count (us : List IgUser) (s : St) (cnt : Nat)
    (hcnt : cnt < 200) (hfresh : ∀ u ∈ us, u.pk ∉ s.viewed)
    (hnd : (us.map IgUser.pk).Nodup) :
    countEv isSeenOk (storiesOuter P201 FZ igLimits us s cnt).trace = us.length := by
  induction us generalizing s with
  | nil => simp [storiesOuter, countEv_nil]
  | cons u rest ih =>
    have hb : ¬ (igLimits "story_views" ≤ cnt) := by
      simp only [igLimits]
      omega
    have hmem : u.pk ∉ s.viewed := hfresh u (by simp)
    have hq : (0 : ℚ) < 7/10 := by norm_num
    have hinner : storiesInner P201 FZ igLimits [⟨u.pk, u.pk⟩] s cnt =
        ⟨{ s with viewed := insert u.pk s.viewed, fi := s.fi + 1 }, cnt,
          [.storySeen u.pk u.pk true, .storyLike u.pk false]⟩ := by
      simp [storiesInner, hmem, FZ, hq, P201, P0]
    have hus : P201.user_stories u.pk = .ok [⟨u.pk, u.pk⟩] := rfl
    simp only [storiesOuter, if_neg hb, hus, hinner]
    have hfresh2 : ∀ v ∈ rest, v.pk ∉ insert u.pk s.viewed := by
      intro v hv
      simp only [Finset.mem_insert]
      push_neg
      refine ⟨?_, hfresh v (by simp [hv])⟩
      intro hvp
      have := (List.nodup_cons.1 hnd).1
      exact this (hvp ▸ List.mem_map_of_mem IgUser.pk hv)
    have := ih { s with viewed := insert u.pk s.viewed, fi := s.fi + 1 } hfresh2
      (List.nodup_cons.1 hnd).2
    simp only [countEv_cons, countEv_append, countEv_nil, isSeenOk, List.length_cons] at this ⊢
    simp at this ⊢
    omega

theorem pyStrOfNat_injective : Function.Injective pyStrOfNat := by
  intro a b h
  have ha := pyToInt_pyStrOfNat a
  rw [h, pyToInt_pyStrOfNat] at ha
  exact (Option.some.inj ha).symm

/-- C1 counterexample: with 201 followed accounts whose single stories
are all seen successfully but whose likes all raise, the story-view
counter never advances, the pass never stops, and one cycle performs 201
successful `story_seen` provider calls — exceeding the configured ceiling
of 200. -/
theorem story_views_overcount_counterexample :
    200 < countEv isSeenOk (ig_execute_cycle P201 FZ I0 st0).trace := by
  have hmap : users201.map IgUser.pk = (List.range 201).map pyStrOfNat := by
    simp [users201, List.map_map]
  have hnd : (users201.map IgUser.pk).Nodup := by
    rw [hmap]
    exact (List.nodup_range 201).map pyStrOfNat_injective
  have hcount := P201_outer_count users201 st0 0 (by norm_num)
    (by intro u hu; simp [st0]) hnd
  have hlen : users201.length = 201 := by simp [users201]
  have hw1 : countEv isSeenOk (handle_stories P201 FZ I0 igLimits st0).trace = 201 := by
    rw [handle_stories, safe_action_count _ _ _ _ ignoresWrapEv_isSeenOk]
    unfold handle_stories_core
    rw [show P201.user_following = .ok users201 from rfl]
    simp only [countEv_cons, isSeenOk]
    simp only [Bool.false_eq_true, if_false, Nat.zero_add]
    rw [hcount, hlen]
  simp only [ig_execute_cycle]
  cases hs1 : (handle_stories P201 FZ I0 igLimits st0).stop with
  | normal =>
    cases hs2 : (engage_feed P201 FZ I0 igLimits
        (handle_stories P201 FZ I0 igLimits st0).st).stop with
    | normal =>
      simp only [countEv_append]
      omega
    | exited n =>
      simp only [countEv_append]
      omega
    | raised e =>
      simp only [countEv_append]
      omega
  | exited n => simpa using by omega
  | raised e => simpa using by omega

/-! ## C2: duplicate suppression — frames and membership preservation -/

theorem safe_action_st (I : Nat → Nat) (lr : Except Exc Unit) (b : BodyOut) :
    (safe_action I lr b).st.viewed = b.st.viewed
    ∧ (safe_action I lr b).st.liked = b.st.liked
    ∧ (safe_action I lr b).st.commented = b.st.commented
    ∧ (safe_action I lr b).st.followed = b.st.followed
    ∧ (safe_action I lr b).st.messaged = b.st.messaged := by
  rcases b with ⟨s, v, tr, exc⟩
  cases exc with
  | none => simp [safe_action]
  | some e =>
    cases e with
    | clientError => simp [safe_action, _handle_retry]
    | clientConnectionError => simp [safe_action, _handle_retry]
    | challengeRequired => simp [safe_action]
    | loginRequired =>
      cases lr with
      | ok u => simp [safe_action]
      | error le => cases le <;> simp [safe_action]
    | badPassword => simp [safe_action]
    | other m => simp [safe_action]

theorem storiesInner_frame (P : Provider) (F : Nat → ℚ) (L : String → Nat)
    (stories : List Story) (s : St) (cnt : Nat) :
    (storiesInner P F L stories s cnt).st.liked = s.liked
    ∧ (storiesInner P F L stories s cnt).st.commented = s.commented
    ∧ (storiesInner P F L stories s cnt).st.messaged = s.messaged := by
  induction stories generalizing s cnt with
  | nil => simp [storiesInner]
  | cons st rest ih =>
    by_cases hm : st.id ∈ s.viewed
    · simpa [storiesInner, hm] using ih s cnt
    · simp only [storiesInner, if_neg hm]
      cases hseen : P.story_seen st.pk with
      | error e => simp
      | ok _ =>
        by_cases hf : F s.fi < 7/10
        · simp only [hf, if_true]
          split
          · simp
          · split
            · simpa using ih { s with viewed := insert st.id s.viewed, fi := s.fi + 1 } (cnt + 1)
            · simp
        · simp only [hf, if_false]
          split
          · simpa using ih { s with viewed := insert st.id s.viewed, fi := s.fi + 1 } (cnt + 1)
          · simp

theorem storiesOuter_frame (P : Provider) (F : Nat → ℚ) (L : String → Nat)
    (us : List IgUser) (s : St) (cnt : Nat) :
    (storiesOuter P F L us s cnt).st.liked = s.liked
    ∧ (storiesOuter P F L us s cnt).st.commented = s.commented
    ∧ (storiesOuter P F L us s cnt).st.messaged = s.messaged := by
  induction us generalizing s cnt with
  | nil => simp [storiesOuter]
  | cons u rest ih =>
    by_cases hb : L "story_views" ≤ cnt
    · simp [storiesOuter, hb]
    · simp only [storiesOuter, if_neg hb]
      cases hus : P.user_stories u.pk with
      | error e => simpa using ih s cnt
      | ok stories =>
        have hi := storiesInner_frame P F L stories s cnt
        have ho := ih (storiesInner P F L stories s cnt).st (storiesInner P F L stories s cnt).cnt
        exact ⟨ho.1.trans hi.1, ho.2.1.trans hi.2.1, ho.2.2.trans hi.2.2⟩

theorem commentStep_frame (P : Provider) (F : Nat → ℚ) (I : Nat → Nat)
    (L : String → Nat) (post : Post) (s : St) (cc : Nat) :
    (∀ s2 cc2 evs, commentStep P F I L post s cc = .go s2 cc2 evs →
      s2.viewed = s.viewed ∧ s2.liked = s.liked ∧ s2.messaged = s.messaged)
    ∧ (∀ s2 evs ex, commentStep P F I L post s cc = .halt s2 evs ex →
      s2.viewed = s.viewed ∧ s2.liked = s.liked ∧ s2.messaged = s.messaged) := by
  unfold commentStep
  constructor
  · intro s2 cc2 evs h
    split at h
    · split at h
      · dsimp only at h
        cases hmc : P.media_comment post.id (comments3.getD (I s.ii % 3) "") with
        | error e2 => rw [hmc] at h; cases h
        | ok u =>
          rw [hmc] at h
          cases h
          simp
      · cases h
        simp
    · cases h
      simp
  · intro s2 evs ex h
    split at h
    · split at h
      · dsimp only at h
        cases hmc : P.media_comment post.id (comments3.getD (I s.ii % 3) "") with
        | error e2 =>
          rw [hmc] at h
          cases h
          simp
        | ok u => rw [hmc] at h; cases h
      · cases h
    · cases h

theorem feedLoop_frame (P : Provider) (F : Nat → ℚ) (I : Nat → Nat)
    (L : String → Nat) (feed : List Post) (s : St) (lc cc : Nat) :
    (feedLoop P F I L feed s lc cc).st.viewed = s.viewed
    ∧ (feedLoop P F I L feed s lc cc).st.messaged = s.messaged := by
  induction feed generalizing s lc cc with
  | nil => simp [feedLoop]
  | cons post rest ih =>
    by_cases hm : post.id ∈ s.liked
    · simpa [feedLoop, hm] using ih s lc cc
    · simp only [feedLoop, if_neg hm]
      by_cases hw : _within_limit L "likes" (lc : Int) = true
      · simp only [hw, if_true]
        cases hml : P.media_like post.id with
        | error e => simp
        | ok _ =>
          cases hcs : commentStep P F I L post { s with liked := insert post.id s.liked } cc with
          | halt s2 evs ex =>
            have := (commentStep_frame P F I L post _ cc).2 _ _ _ hcs
            simp only at this ⊢
            simp [this.1, this.2.2]
          | go s2 cc2 evs =>
            have hfr := (commentStep_frame P F I L post _ cc).1 _ _ _ hcs
            have := ih s2 (lc + 1) cc2
            simp only at hfr this ⊢
            rw [this.1, this.2, hfr.1, hfr.2.2]
            simp
      · simp only [hw]
        simp only [Bool.false_eq_true, if_false]
        cases hcs : commentStep P F I L post s cc with
        | halt s2 evs ex =>
          have := (commentStep_frame P F I L post s cc).2 _ _ _ hcs
          simp only at this ⊢
          simp [this.1, this.2.2]
        | go s2 cc2 evs =>
          have hfr := (commentStep_frame P F I L post s cc).1 _ _ _ hcs
          have := ih s2 lc cc2
          simp only at hfr this ⊢
          rw [this.1, this.2, hfr.1, hfr.2.2]
          simp

theorem dmLoop_frame (P : Provider) (L : String → Nat)
    (fols : List (Nat × String)) (s : St) (c : Nat) :
    (dmLoop P L fols s c).st.viewed = s.viewed
    ∧ (dmLoop P L fols s c).st.liked = s.liked
    ∧ (dmLoop P L fols s c).st.commented = s.commented := by
  induction fols generalizing s c with
  | nil => simp [dmLoop]
  | cons f rest ih =>
    rcases f with ⟨uid, uname⟩
    by_cases hs : L "dms" ≤ c ∨ uid ∈ s.messaged
    · simpa [dmLoop, hs] using ih s c
    · simp only [dmLoop, if_neg hs]
      cases hds : P.direct_send ("Hi " ++ uname ++ ", thanks for connecting!") uid with
      | error e => simp
      | ok _ =>
        simpa using ih { s with messaged := insert uid s.messaged, file := some (s.file.getD [] ++ [Nat.repr uid]) } (c + 1)

theorem follow_core_frame (P : Provider) (target : String) (s : St) :
    ((follow_core P target s).st.viewed = s.viewed
      ∧ (follow_core P target s).st.liked = s.liked
      ∧ (follow_core P target s).st.commented = s.commented
      ∧ (follow_core P target s).st.messaged = s.messaged)
    ∧ ((unfollow_core P target s).st.viewed = s.viewed
      ∧ (unfollow_core P target s).st.liked = s.liked
      ∧ (unfollow_core P target s).st.commented = s.commented
      ∧ (unfollow_core P target s).st.messaged = s.messaged) := by
  constructor
  · unfold follow_core
    split
    · simp
    · split
      · simp
      · split <;> simp
  · unfold unfollow_core
    split
    · simp
    · split
      · simp
      · split <;> simp

theorem storiesInner_viewed_keep (P : Provider) (F : Nat → ℚ) (L : String → Nat)
    (stories : List Story) (s : St) (cnt : Nat) (x : String) (hx : x ∈ s.viewed) :
    x ∈ (storiesInner P F L stories s cnt).st.viewed
    ∧ countEv (touchesStory x) (storiesInner P F L stories s cnt).trace = 0 := by
  induction stories generalizing s cnt with
  | nil => simpa [storiesInner, countEv_nil]
  | cons st rest ih =>
    by_cases hm : st.id ∈ s.viewed
    · simpa [storiesInner, hm] using ih s cnt hx
    · have hne : st.id ≠ x := fun h => hm (h ▸ hx)
      simp only [storiesInner, if_neg hm]
      cases hseen : P.story_seen st.pk with
      | error e =>
        simp [countEv_cons, countEv_nil, touchesStory, hne, hx]
      | ok _ =>
        have hx2 : x ∈ insert st.id s.viewed := Finset.mem_insert_of_mem hx
        by_cases hf : F s.fi < 7/10
        · simp only [hf, if_true]
          split
          · simp [countEv_cons, countEv_nil, touchesStory, hne, hx2]
          · split
            · have := ih { s with viewed := insert st.id s.viewed, fi := s.fi + 1 } (cnt + 1) hx2
              simp only at this ⊢
              simp [countEv_cons, touchesStory, hne, this.1, this.2]
            · simp [countEv_cons, countEv_nil, touchesStory, hne, hx2]
        · simp only [hf, if_false]
          split
          · have := ih { s with viewed := insert st.id s.viewed, fi := s.fi + 1 } (cnt + 1) hx2
            simp only at this ⊢
            simp [countEv_cons, touchesStory, hne, this.1, this.2]
          · simp [countEv_cons, countEv_nil, touchesStory, hne, hx2]

theorem storiesOuter_viewed_keep (P : Provider) (F : Nat → ℚ) (L : String → Nat)
    (us : List IgUser) (s : St) (cnt : Nat) (x : String) (hx : x ∈ s.viewed) :
    x ∈ (storiesOuter P F L us s cnt).st.viewed
    ∧ countEv (touchesStory x) (storiesOuter P F L us s cnt).trace = 0 := by
  induction us generalizing s cnt with
  | nil => simpa [storiesOuter, countEv_nil]
  | cons u rest ih =>
    by_cases hb : L "story_views" ≤ cnt
    · simpa [storiesOuter, hb, countEv_nil]
    · simp only [storiesOuter, if_neg hb]
      cases hus : P.user_stories u.pk with
      | error e =>
        have := ih s cnt hx
        simp only at this ⊢
        simp [countEv_cons, touchesStory, this.1, this.2]
      | ok stories =>
        have hi := storiesInner_viewed_keep P F L stories s cnt x hx
        have ho := ih (storiesInner P F L stories s cnt).st
          (storiesInner P F L stories s cnt).cnt hi.1
        simp only at hi ho ⊢
        simp [countEv_cons, countEv_append, touchesStory, hi.2, ho.1, ho.2]

theorem commentStep_commented_keep (P : Provider) (F : Nat → ℚ) (I : Nat → Nat)
    (L : String → Nat) (post : Post) (s : St) (cc : Nat) (x : String)
    (hx : x ∈ s.commented) :
    (∀ s2 cc2 evs, commentStep P F I L post s cc = .go s2 cc2 evs →
      x ∈ s2.commented ∧ countEv (commentsPost x) evs = 0)
    ∧ (∀ s2 evs ex, commentStep P F I L post s cc = .halt s2 evs ex →
      x ∈ s2.commented ∧ countEv (commentsPost x) evs = 0) := by
  unfold commentStep
  constructor
  · intro s2 cc2 evs h
    split at h
    · rename_i hg
      have hne : post.id ≠ x := fun he => hg.2 (he ▸ hx)
      split at h
      · dsimp only at h
        cases hmc : P.media_comment post.id (comments3.getD (I s.ii % 3) "") with
        | error e2 => rw [hmc] at h; cases h
        | ok u =>
          rw [hmc] at h
          cases h
          refine ⟨Finset.mem_insert_of_mem hx, ?_⟩
          simp [countEv_cons, countEv_nil, commentsPost, hne]
      · cases h
        exact ⟨hx, rfl⟩
    · cases h
      exact ⟨hx, rfl⟩
  · intro s2 evs ex h
    split at h
    · rename_i hg
      have hne : post.id ≠ x := fun he => hg.2 (he ▸ hx)
      split at h
      · dsimp only at h
        cases hmc : P.media_comment post.id (comments3.getD (I s.ii % 3) "") with
        | error e2 =>
          rw [hmc] at h
          cases h
          refine ⟨hx, ?_⟩
          simp [countEv_cons, countEv_nil, commentsPost, hne]
        | ok u => rw [hmc] at h; cases h
      · cases h
    · cases h

theorem commentStep_no_like (P : Provider) (F : Nat → ℚ) (I : Nat → Nat)
    (L : String → Nat) (post : Post) (s : St) (cc : Nat) (p : Ev → Bool)
    (hp : ∀ i t o, p (.mediaComment i t o) = false) :
    (∀ s2 cc2 evs, commentStep P F I L post s cc = .go s2 cc2 evs →
      countEv p evs = 0)
    ∧ (∀ s2 evs ex, commentStep P F I L post s cc = .halt s2 evs ex →
      countEv p evs = 0) := by
  rcases commentStep_cases P F I L post s cc with ⟨s2, heq⟩ | ⟨s2, t, heq, -⟩ |
    ⟨s2, t, ex, heq, -⟩ <;>
    constructor <;> intro a b c h <;> rw [heq] at h <;>
      first
        | (cases h; simp [countEv_cons, countEv_nil, hp])
        | exact absurd h (by simp)

theorem feedLoop_liked_keep (P : Provider) (F : Nat → ℚ) (I : Nat → Nat)
    (L : String → Nat) (feed : List Post) (s : St) (lc cc : Nat) (x : String)
    (hx : x ∈ s.liked) :
    x ∈ (feedLoop P F I L feed s lc cc).st.liked
    ∧ countEv (likesPost x) (feedLoop P F I L feed s lc cc).trace = 0 := by
  induction feed generalizing s lc cc with
  | nil => simpa [feedLoop, countEv_nil]
  | cons post rest ih =>
    by_cases hm : post.id ∈ s.liked
    · simpa [feedLoop, hm] using ih s lc cc hx
    · have hne : post.id ≠ x := fun h => hm (h ▸ hx)
      simp only [feedLoop, if_neg hm]
      by_cases hw : _within_limit L "likes" (lc : Int) = true
      · simp only [hw, if_true]
        cases hml : P.media_like post.id with
        | error e =>
          simp [countEv_cons, countEv_nil, likesPost, hne, hx]
        | ok _ =>
          have hx2 : x ∈ (insert post.id s.liked) := Finset.mem_insert_of_mem hx
          cases hcs : commentStep P F I L post { s with liked := insert post.id s.liked } cc with
          | halt s2 evs ex =>
            have hfr := (commentStep_frame P F I L post _ cc).2 _ _ _ hcs
            have hzero : countEv (likesPost x) evs = 0 :=
              (commentStep_no_like P F I L post _ cc (likesPost x)
                (fun i t o => rfl)).2 _ _ _ hcs
            simp only at hfr ⊢
            rw [hfr.2.1]
            simp [countEv_cons, countEv_append, likesPost, hne, hzero, hx2]
          | go s2 cc2 evs =>
            have hfr := (commentStep_frame P F I L post _ cc).1 _ _ _ hcs
            have hzero : countEv (likesPost x) evs = 0 :=
              (commentStep_no_like P F I L post _ cc (likesPost x)
                (fun i t o => rfl)).1 _ _ _ hcs
            have hx3 : x ∈ s2.liked := by
              rw [hfr.2.1]
              exact hx2
            have := ih s2 (lc + 1) cc2 hx3
            simp only at this ⊢
            simp [countEv_cons, countEv_append, likesPost, hne, hzero, this.1, this.2]
      · simp only [hw]
        simp only [Bool.false_eq_true, if_false]
        cases hcs : commentStep P F I L post s cc with
        | halt s2 evs ex =>
          have hzero : countEv (likesPost x) evs = 0 :=
            (commentStep_no_like P F I L post s cc (likesPost x)
              (fun i t o => rfl)).2 _ _ _ hcs
          have hfr := (commentStep_frame P F I L post s cc).2 _ _ _ hcs
          simp only at hfr ⊢
          rw [hfr.2.1]
          simpa [hzero] using hx
        | go s2 cc2 evs =>
          have hfr := (commentStep_frame P F I L post s cc).1 _ _ _ hcs
          have hzero : countEv (likesPost x) evs = 0 :=
            (commentStep_no_like P F I L post s cc (likesPost x)
              (fun i t o => rfl)).1 _ _ _ hcs
          have hx3 : x ∈ s2.liked := by
            rw [hfr.2.1]
            exact hx
          have := ih s2 lc cc2 hx3
          simp only at this ⊢
          simp [countEv_append, hzero, this.1, this.2]

theorem feedLoop_commented_keep (P : Provider) (F : Nat → ℚ) (I : Nat → Nat)
    (L : String → Nat) (feed : List Post) (s : St) (lc cc : Nat) (x : String)
    (hx : x ∈ s.commented) :
    x ∈ (feedLoop P F I L feed s lc cc).st.commented
    ∧ countEv (commentsPost x) (feedLoop P F I L feed s lc cc).trace = 0 := by
  induction feed generalizing s lc cc with
  | nil => simpa [feedLoop, countEv_nil]
  | cons post rest ih =>
    by_cases hm : post.id ∈ s.liked
    · simpa [feedLoop, hm] using ih s lc cc hx
    · simp only [feedLoop, if_neg hm]
      by_cases hw : _within_limit L "likes" (lc : Int) = true
      · simp only [hw, if_true]
        cases hml : P.media_like post.id with
        | error e => simp [countEv_cons, countEv_nil, commentsPost, hx]
        | ok _ =>
          have hx2 : x ∈ (St.commented { s with liked := insert post.id s.liked }) := hx
          cases hcs : commentStep P F I L post { s with liked := insert post.id s.liked } cc with
          | halt s2 evs ex =>
            have hzero := ((commentStep_commented_keep P F I L post _ cc x hx2).2) _ _ _ hcs
            simp [countEv_cons, countEv_append, commentsPost, hzero.1, hzero.2]
          | go s2 cc2 evs =>
            have hk := ((commentStep_commented_keep P F I L post _ cc x hx2).1) _ _ _ hcs
            have := ih s2 (lc + 1) cc2 hk.1
            simp only at this ⊢
            simp [countEv_cons, countEv_append, commentsPost, hk.2, this.1, this.2]
      · simp only [hw]
        simp only [Bool.false_eq_true, if_false]
        cases hcs : commentStep P F I L post s cc with
        | halt s2 evs ex =>
          have hzero := ((commentStep_commented_keep P F I L post s cc x hx).2) _ _ _ hcs
          simp [countEv_append, hzero.1, hzero.2]
        | go s2 cc2 evs =>
          have hk := ((commentStep_commented_keep P F I L post s cc x hx).1) _ _ _ hcs
          have := ih s2 lc cc2 hk.1
          simp only at this ⊢
          simp [countEv_append, hk.2, this.1, this.2]

theorem dmLoop_messaged_keep (P : Provider) (L : String → Nat)
    (fols : List (Nat × String)) (s : St) (c : Nat) (u0 : Nat)
    (hx : u0 ∈ s.messaged) :
    u0 ∈ (dmLoop P L fols s c).st.messaged
    ∧ countEv (dmsUser u0) (dmLoop P L fols s c).trace = 0 := by
  induction fols generalizing s c with
  | nil => simpa [dmLoop, countEv_nil]
  | cons f rest ih =>
    rcases f with ⟨uid, uname⟩
    by_cases hs : L "dms" ≤ c ∨ uid ∈ s.messaged
    · simpa [dmLoop, hs] using ih s c hx
    · have hne : uid ≠ u0 := fun h => (not_or.1 hs).2 (h ▸ hx)
      simp only [dmLoop, if_neg hs]
      cases hds : P.direct_send ("Hi " ++ uname ++ ", thanks for connecting!") uid with
      | error e =>
        simp [countEv_cons, countEv_nil, dmsUser, hne, hx]
      | ok _ =>
        have hx2 : u0 ∈ insert uid s.messaged := Finset.mem_insert_of_mem hx
        have := ih { s with messaged := insert uid s.messaged, file := some (s.file.getD [] ++ [Nat.repr uid]) } (c + 1) hx2
        simp only at this ⊢
        simp [countEv_cons, dmsUser, hne, this.1, this.2]

theorem handle_stories_sets (P : Provider) (F : Nat → ℚ) (I : Nat → Nat)
    (L : String → Nat) (s : St) :
    (handle_stories P F I L s).st.liked = s.liked
    ∧ (handle_stories P F I L s).st.commented = s.commented
    ∧ (handle_stories P F I L s).st.messaged = s.messaged := by
  have hw := safe_action_st I P.login (handle_stories_core P F L s)
  rw [handle_stories, hw.2.1, hw.2.2.1, hw.2.2.2.2]
  unfold handle_stories_core
  cases h : P.user_following with
  | error e => exact ⟨rfl, rfl, rfl⟩
  | ok users => exact storiesOuter_frame P F L users s 0

theorem engage_feed_sets (P : Provider) (F : Nat → ℚ) (I : Nat → Nat)
    (L : String → Nat) (s : St) :
    (engage_feed P F I L s).st.viewed = s.viewed
    ∧ (engage_feed P F I L s).st.messaged = s.messaged := by
  have hw := safe_action_st I P.login (engage_feed_core P F I L s)
  rw [engage_feed, hw.1, hw.2.2.2.2]
  unfold engage_feed_core
  cases h : P.user_medias (L "likes") with
  | error e => exact ⟨rfl, rfl⟩
  | ok feed => exact feedLoop_frame P F I L feed s 0 0

theorem dm_pass_sets (P : Provider) (I : Nat → Nat) (s : St) :
    (dm_new_followers P I s).st.viewed = s.viewed
    ∧ (dm_new_followers P I s).st.liked = s.liked
    ∧ (dm_new_followers P I s).st.commented = s.commented := by
  have hw := safe_action_st I P.login (dm_new_followers_core P igLimits s)
  rw [dm_new_followers, hw.1, hw.2.1, hw.2.2.1]
  unfold dm_new_followers_core
  cases h : P.user_followers with
  | error e => exact ⟨rfl, rfl, rfl⟩
  | ok fols => exact dmLoop_frame P igLimits fols s 0

theorem follow_pass_sets (P : Provider) (I : Nat → Nat) (target : String) (s : St) :
    ((follow_target_account P I target s).st.viewed = s.viewed
      ∧ (follow_target_account P I target s).st.liked = s.liked
      ∧ (follow_target_account P I target s).st.commented = s.commented
      ∧ (follow_target_account P I target s).st.messaged = s.messaged)
    ∧ ((unfollow_target_account P I target s).st.viewed = s.viewed
      ∧ (unfollow_target_account P I target s).st.liked = s.liked
      ∧ (unfollow_target_account P I target s).st.commented = s.commented
      ∧ (unfollow_target_account P I target s).st.messaged = s.messaged) := by
  constructor
  · have hw := safe_action_st I P.login (follow_core P target s)
    rw [follow_target_account, hw.1, hw.2.1, hw.2.2.1, hw.2.2.2.2]
    exact (follow_core_frame P target s).1
  · have hw := safe_action_st I P.login (unfollow_core P target s)
    rw [unfollow_target_account, hw.1, hw.2.1, hw.2.2.1, hw.2.2.2.2]
    exact (follow_core_frame P target s).2

theorem handle_stories_viewed_keep (P : Provider) (F : Nat → ℚ) (I : Nat → Nat)
    (L : String → Nat) (s : St) (x : String) (hx : x ∈ s.viewed) :
    x ∈ (handle_stories P F I L s).st.viewed
    ∧ countEv (touchesStory x) (handle_stories P F I L s).trace = 0 := by
  have hw := safe_action_st I P.login (handle_stories_core P F L s)
  have hc := safe_action_count I P.login (handle_stories_core P F L s)
    (touchesStory x) ⟨rfl, fun n => rfl, fun o => rfl⟩
  rw [handle_stories, hw.1, hc]
  unfold handle_stories_core
  cases h : P.user_following with
  | error e =>
    exact ⟨hx, by simp [countEv_cons, countEv_nil, touchesStory]⟩
  | ok users =>
    have := storiesOuter_viewed_keep P F L users s 0 x hx
    simp only at this ⊢
    simpa [countEv_cons, touchesStory, this.2] using this.1

theorem engage_feed_liked_keep (P : Provider) (F : Nat → ℚ) (I : Nat → Nat)
    (L : String → Nat) (s : St) (x : String) (hx : x ∈ s.liked) :
    x ∈ (engage_feed P F I L s).st.liked
    ∧ countEv (likesPost x) (engage_feed P F I L s).trace = 0 := by
  have hw := safe_action_st I P.login (engage_feed_core P F I L s)
  have hc := safe_action_count I P.login (engage_feed_core P F I L s)
    (likesPost x) ⟨rfl, fun n => rfl, fun o => rfl⟩
  rw [engage_feed, hw.2.1, hc]
  unfold engage_feed_core
  cases h : P.user_medias (L "likes") with
  | error e =>
    exact ⟨hx, by simp [countEv_cons, countEv_nil, likesPost]⟩
  | ok feed =>
    have := feedLoop_liked_keep P F I L feed s 0 0 x hx
    simp only at this ⊢
    simpa [countEv_cons, likesPost, this.2] using this.1

theorem engage_feed_commented_keep (P : Provider) (F : Nat → ℚ) (I : Nat → Nat)
    (L : String → Nat) (s : St) (x : String) (hx : x ∈ s.commented) :
    x ∈ (engage_feed P F I L s).st.commented
    ∧ countEv (commentsPost x) (engage_feed P F I L s).trace = 0 := by
  have hw := safe_action_st I P.login (engage_feed_core P F I L s)
  have hc := safe_action_count I P.login (engage_feed_core P F I L s)
    (commentsPost x) ⟨rfl, fun n => rfl, fun o => rfl⟩
  rw [engage_feed, hw.2.2.1, hc]
  unfold engage_feed_core
  cases h : P.user_medias (L "likes") with
  | error e =>
    exact ⟨hx, by simp [countEv_cons, countEv_nil, commentsPost]⟩
  | ok feed =>
    have := feedLoop_commented_keep P F I L feed s 0 0 x hx
    simp only at this ⊢
    simpa [countEv_cons, commentsPost, this.2] using this.1

theorem dm_pass_messaged_keep (P : Provider) (I : Nat → Nat) (s : St) (u0 : Nat)
    (hx : u0 ∈ s.messaged) :
    u0 ∈ (dm_new_followers P I s).st.messaged
    ∧ countEv (dmsUser u0) (dm_new_followers P I s).trace = 0 := by
  have hw := safe_action_st I P.login (dm_new_followers_core P igLimits s)
  have hc := safe_action_count I P.login (dm_new_followers_core P igLimits s)
    (dmsUser u0) ⟨rfl, fun n => rfl, fun o => rfl⟩
  rw [dm_new_followers, hw.2.2.2.2, hc]
  unfold dm_new_followers_core
  cases h : P.user_followers with
  | error e =>
    exact ⟨hx, by simp [countEv_cons, countEv_nil, dmsUser]⟩
  | ok fols =>
    have := dmLoop_messaged_keep P igLimits fols s 0 u0 hx
    simp only at this ⊢
    simpa [countEv_cons, dmsUser, this.2] using this.1

theorem ig_cycle_keep (P : Provider) (F : Nat → ℚ) (I : Nat → Nat)
    (Q : St → Prop) (p : Ev → Bool)
    (h1 : ∀ s1, Q s1 → Q (handle_stories P F I igLimits s1).st
      ∧ countEv p (handle_stories P F I igLimits s1).trace = 0)
    (h2 : ∀ s2, Q s2 → Q (engage_feed P F I igLimits s2).st
      ∧ countEv p (engage_feed P F I igLimits s2).trace = 0)
    (h3 : ∀ s3, Q s3 → Q (dm_new_followers P I s3).st
      ∧ countEv p (dm_new_followers P I s3).trace = 0)
    (s : St) (hq : Q s) :
    Q (ig_execute_cycle P F I s).st
    ∧ countEv p (ig_execute_cycle P F I s).trace = 0 := by
  simp only [ig_execute_cycle]
  have k1 := h1 s hq
  cases hs1 : (handle_stories P F I igLimits s).stop with
  | normal =>
    have k2 := h2 _ k1.1
    cases hs2 : (engage_feed P F I igLimits (handle_stories P F I igLimits s).st).stop with
    | normal =>
      have k3 := h3 _ k2.1
      simp only [countEv_append]
      exact ⟨k3.1, by omega⟩
    | exited n =>
      simp only [countEv_append]
      exact ⟨k2.1, by omega⟩
    | raised e =>
      simp only [countEv_append]
      exact ⟨k2.1, by omega⟩
  | exited n => exact k1
  | raised e => exact k1

theorem bot_cycle_keep (P : Provider) (F : Nat → ℚ) (I : Nat → Nat)
    (target : String) (Q : St → Prop) (p : Ev → Bool)
    (hqii : ∀ s, Q s → ∀ n, Q { s with ii := n })
    (hsl : ∀ n, p (.sleepSecs n) = false)
    (h1 : ∀ s1, Q s1 → Q (handle_stories P F I botLimits s1).st
      ∧ countEv p (handle_stories P F I botLimits s1).trace = 0)
    (h2 : ∀ s2, Q s2 → Q (engage_feed P F I botLimits s2).st
      ∧ countEv p (engage_feed P F I botLimits s2).trace = 0)
    (h3 : ∀ s3, Q s3 → Q (follow_target_account P I target s3).st
      ∧ countEv p (follow_target_account P I target s3).trace = 0)
    (h4 : ∀ s4, Q s4 → Q (unfollow_target_account P I target s4).st
      ∧ countEv p (unfollow_target_account P I target s4).trace = 0)
    (s : St) (hq : Q s) :
    Q (bot_execute_cycle P F I target s).st
    ∧ countEv p (bot_execute_cycle P F I target s).trace = 0 := by
  simp only [bot_execute_cycle]
  generalize hw1 : handle_stories P F I botLimits s = w1
  have k1 : Q w1.st ∧ countEv p w1.trace = 0 := hw1 ▸ h1 s hq
  cases hs1 : w1.stop with
  | normal =>
    generalize hw2 : engage_feed P F I botLimits w1.st = w2
    have k2 : Q w2.st ∧ countEv p w2.trace = 0 := hw2 ▸ h2 w1.st k1.1
    cases hs2 : w2.stop with
    | normal =>
      generalize hw3 : follow_target_account P I target w2.st = w3
      have k3 : Q w3.st ∧ countEv p w3.trace = 0 := hw3 ▸ h3 w2.st k2.1
      cases hs3 : w3.stop with
      | normal =>
        by_cases hv : w3.val = some true
        · rw [if_pos hv]
          have hq4 : Q ⟨w3.st.viewed, w3.st.liked, w3.st.commented, w3.st.followed, w3.st.messaged, w3.st.file, w3.st.fi, w3.st.ii + 1⟩ :=
            hqii w3.st k3.1 (w3.st.ii + 1)
          have k4 := h4 ⟨w3.st.viewed, w3.st.liked, w3.st.commented, w3.st.followed, w3.st.messaged, w3.st.file, w3.st.fi, w3.st.ii + 1⟩ hq4
          simp only [countEv_append, countEv_cons, hsl]
          refine ⟨k4.1, ?_⟩
          simp only [Bool.false_eq_true, if_false]
          omega
        · rw [if_neg hv]
          simp only [countEv_append]
          exact ⟨k3.1, by omega⟩
      | exited n =>
        simp only [countEv_append]
        exact ⟨k3.1, by omega⟩
      | raised e =>
        simp only [countEv_append]
        exact ⟨k3.1, by omega⟩
    | exited n =>
      simp only [countEv_append]
      exact ⟨k2.1, by omega⟩
    | raised e =>
      simp only [countEv_append]
      exact ⟨k2.1, by omega⟩
  | exited n => exact k1
  | raised e => exact k1

theorem ig_run_keep (F : Nat → ℚ) (I : Nat → Nat) (Q : St → Prop) (p : Ev → Bool)
    (hsl : ∀ n, p (.sleepSecs n) = false)
    (h : ∀ P s, Q s → Q (ig_execute_cycle P F I s).st
      ∧ countEv p (ig_execute_cycle P F I s).trace = 0)
    (Ps : List Provider) (s : St) (hq : Q s) :
    Q (ig_run F I Ps s).st ∧ countEv p (ig_run F I Ps s).trace = 0 := by
  induction Ps generalizing s with
  | nil => exact ⟨hq, rfl⟩
  | cons P Ps ih =>
    simp only [ig_run]
    have k := h P s hq
    cases hs : (ig_execute_cycle P F I s).stop with
    | normal =>
      have kr := ih _ k.1
      simp only [countEv_append, countEv_cons, hsl]
      refine ⟨kr.1, ?_⟩
      simp only [Bool.false_eq_true, if_false]
      omega
    | exited n => exact k
    | raised e => exact k

theorem bot_run_keep (F : Nat → ℚ) (I : Nat → Nat) (target : String)
    (Q : St → Prop) (p : Ev → Bool)
    (hsl : ∀ n, p (.sleepSecs n) = false)
    (h : ∀ P s, Q s → Q (bot_execute_cycle P F I target s).st
      ∧ countEv p (bot_execute_cycle P F I target s).trace = 0)
    (Ps : List Provider) (s : St) (hq : Q s) :
    Q (bot_run F I target Ps s).st ∧ countEv p (bot_run F I target Ps s).trace = 0 := by
  induction Ps generalizing s with
  | nil => exact ⟨hq, rfl⟩
  | cons P Ps ih =>
    simp only [bot_run]
    have k := h P s hq
    cases hs : (bot_execute_cycle P F I target s).stop with
    | normal =>
      have kr := ih _ k.1
      simp only [countEv_append, countEv_cons, hsl]
      refine ⟨kr.1, ?_⟩
      simp only [Bool.false_eq_true, if_false]
      omega
    | exited n => exact k
    | raised e => exact k

/-- C2: duplicate suppression.  Over any multi-cycle run (arbitrary
provider per cycle, arbitrary oracles), an identifier already present in
a duplicate-tracking set receives zero further provider calls in its
category: a viewed story id is never seen or liked again, a liked post id
is never liked again, a commented post id is never commented again, a
messaged user id is never messaged again — in both variants' run loops —
and a target recorded followed receives zero follow-category provider
calls (`user_follow` or `user_unfollow`) over the whole multi-cycle
bot.py run: each cycle's `follow_target_account` returns `False` without
a provider call, so the sleep-then-unfollow branch is never entered and
the record never changes. -/
theorem storiesInner_followed (P : Provider) (F : Nat → ℚ) (L : String → Nat)
    (stories : List Story) (s : St) (cnt : Nat) :
    (storiesInner P F L stories s cnt).st.followed = s.followed := by
  induction stories generalizing s cnt with
  | nil => simp [storiesInner]
  | cons st rest ih =>
    by_cases hm : st.id ∈ s.viewed
    · simpa [storiesInner, hm] using ih s cnt
    · simp only [storiesInner, if_neg hm]
      cases hseen : P.story_seen st.pk with
      | error e => simp
      | ok _ =>
        by_cases hf : F s.fi < 7/10
        · simp only [hf, if_true]
          split
          · simp
          · split
            · simpa using ih { s with viewed := insert st.id s.viewed, fi := s.fi + 1 } (cnt + 1)
            · simp
        · simp only [hf, if_false]
          split
          · simpa using ih { s with viewed := insert st.id s.viewed, fi := s.fi + 1 } (cnt + 1)
          · simp

theorem storiesOuter_followed (P : Provider) (F : Nat → ℚ) (L : String → Nat)
    (us : List IgUser) (s : St) (cnt : Nat) :
    (storiesOuter P F L us s cnt).st.followed = s.followed := by
  induction us generalizing s cnt with
  | nil => simp [storiesOuter]
  | cons u rest ih =>
    by_cases hb : L "story_views" ≤ cnt
    · simp [storiesOuter, hb]
    · simp only [storiesOuter, if_neg hb]
      cases hus : P.user_stories u.pk with
      | error e => simpa using ih s cnt
      | ok stories =>
        exact (ih (storiesInner P F L stories s cnt).st
          (storiesInner P F L stories s cnt).cnt).trans
          (storiesInner_followed P F L stories s cnt)

theorem commentStep_followed (P : Provider) (F : Nat → ℚ) (I : Nat → Nat)
    (L : String → Nat) (post : Post) (s : St) (cc : Nat) :
    (∀ s2 cc2 evs, commentStep P F I L post s cc = .go s2 cc2 evs →
      s2.followed = s.followed)
    ∧ (∀ s2 evs ex, commentStep P F I L post s cc = .halt s2 evs ex →
      s2.followed = s.followed) := by
  unfold commentStep
  constructor
  · intro s2 cc2 evs h
    split at h
    · split at h
      · dsimp only at h
        cases hmc : P.media_comment post.id (comments3.getD (I s.ii % 3) "") with
        | error e2 => rw [hmc] at h; cases h
        | ok u =>
          rw [hmc] at h
          cases h
          simp
      · cases h
        simp
    · cases h
      simp
  · intro s2 evs ex h
    split at h
    · split at h
      · dsimp only at h
        cases hmc : P.media_comment post.id (comments3.getD (I s.ii % 3) "") with
        | error e2 =>
          rw [hmc] at h
          cases h
          simp
        | ok u => rw [hmc] at h; cases h
      · cases h
    · cases h

theorem feedLoop_followed (P : Provider) (F : Nat → ℚ) (I : Nat → Nat)
    (L : String → Nat) (feed : List Post) (s : St) (lc cc : Nat) :
    (feedLoop P F I L feed s lc cc).st.followed = s.followed := by
  induction feed generalizing s lc cc with
  | nil => simp [feedLoop]
  | cons post rest ih =>
    by_cases hm : post.id ∈ s.liked
    · simpa [feedLoop, hm] using ih s lc cc
    · simp only [feedLoop, if_neg hm]
      by_cases hw : _within_limit L "likes" (lc : Int) = true
      · simp only [hw, if_true]
        cases hml : P.media_like post.id with
        | error e => simp
        | ok _ =>
          cases hcs : commentStep P F I L post { s with liked := insert post.id s.liked } cc with
          | halt s2 evs ex =>
            have := (commentStep_followed P F I L post _ cc).2 _ _ _ hcs
            simpa using this
          | go s2 cc2 evs =>
            have hfr := (commentStep_followed P F I L post _ cc).1 _ _ _ hcs
            have := ih s2 (lc + 1) cc2
            simp only at hfr this ⊢
            rw [this, hfr]
      · simp only [hw]
        simp only [Bool.false_eq_true, if_false]
        cases hcs : commentStep P F I L post s cc with
        | halt s2 evs ex =>
          exact (commentStep_followed P F I L post s cc).2 _ _ _ hcs
        | go s2 cc2 evs =>
          have hfr := (commentStep_followed P F I L post s cc).1 _ _ _ hcs
          have := ih s2 lc cc2
          simp only at hfr this ⊢
          rw [this, hfr]

theorem handle_stories_followed (P : Provider) (F : Nat → ℚ) (I : Nat → Nat)
    (L : String → Nat) (s : St) :
    (handle_stories P F I L s).st.followed = s.followed := by
  have hw := safe_action_st I P.login (handle_stories_core P F L s)
  rw [handle_stories, hw.2.2.2.1]
  unfold handle_stories_core
  cases h : P.user_following with
  | error e => rfl
  | ok users => exact storiesOuter_followed P F L users s 0

theorem engage_feed_followed (P : Provider) (F : Nat → ℚ) (I : Nat → Nat)
    (L : String → Nat) (s : St) :
    (engage_feed P F I L s).st.followed = s.followed := by
  have hw := safe_action_st I P.login (engage_feed_core P F I L s)
  rw [engage_feed, hw.2.2.2.1]
  unfold engage_feed_core
  cases h : P.user_medias (L "likes") with
  | error e => rfl
  | ok feed => exact feedLoop_followed P F I L feed s 0 0

theorem follow_target_recorded (P : Provider) (I : Nat → Nat) (target : String)
    (s : St) (h : target ∈ s.followed) :
    follow_target_account P I target s =
      ⟨{ s with fi := s.fi + 1 }, some false, [.sleepShort], .normal⟩ := by
  simp [follow_target_account, follow_core, h, safe_action]

/-- One bot.py cycle with the target already recorded followed: the
follow pass returns `False` without provider calls, so the Python
truthiness test skips the sleep-then-unfollow branch entirely — the
cycle makes zero follow-category provider calls and keeps the record. -/
theorem bot_cycle_follow_keep (P : Provider) (F : Nat → ℚ) (I : Nat → Nat)
    (target : String) (s : St) (hq : target ∈ s.followed) :
    target ∈ (bot_execute_cycle P F I target s).st.followed
    ∧ countEv isFollowEv (bot_execute_cycle P F I target s).trace = 0 := by
  simp only [bot_execute_cycle]
  generalize hw1 : handle_stories P F I botLimits s = w1
  have hf1 : target ∈ w1.st.followed := by
    rw [← hw1, handle_stories_followed]
    exact hq
  have hc1 : countEv isFollowEv w1.trace = 0 := by
    rw [← hw1]
    exact handle_stories_count_zero P F I botLimits s isFollowEv
      ignoresWrapEv_isFollowEv
      (fun e h => by cases e <;> simp_all [isStoryKind, isFollowEv]) (fun o => rfl)
  cases hs1 : w1.stop with
  | normal =>
    generalize hw2 : engage_feed P F I botLimits w1.st = w2
    have hf2 : target ∈ w2.st.followed := by
      rw [← hw2, engage_feed_followed]
      exact hf1
    have hc2 : countEv isFollowEv w2.trace = 0 := by
      rw [← hw2]
      exact engage_feed_count_zero P F I botLimits w1.st isFollowEv
        ignoresWrapEv_isFollowEv
        (fun e h => by cases e <;> simp_all [isFeedKind, isFollowEv]) (fun n o => rfl)
    cases hs2 : w2.stop with
    | normal =>
      rw [follow_target_recorded P I target w2.st hf2]
      simp only [countEv_append, countEv_cons, countEv_nil, isFollowEv]
      exact ⟨hf2, by simp [countEv_append, countEv_cons, countEv_nil, isFollowEv, hc1, hc2]⟩
    | exited n =>
      exact ⟨hf2, by simp [countEv_append, hc1, hc2]⟩
    | raised e =>
      exact ⟨hf2, by simp [countEv_append, hc1, hc2]⟩
  | exited n => exact ⟨hf1, hc1⟩
  | raised e => exact ⟨hf1, hc1⟩

theorem no_repeat_actions (F : Nat → ℚ) (I : Nat → Nat) (Ps : List Provider)
    (s : St) (x : String) (u : Nat) (target : String) (P : Provider) :
    (x ∈ s.viewed → countEv (touchesStory x) (ig_run F I Ps s).trace = 0)
    ∧ (x ∈ s.liked → countEv (likesPost x) (ig_run F I Ps s).trace = 0)
    ∧ (x ∈ s.commented → countEv (commentsPost x) (ig_run F I Ps s).trace = 0)
    ∧ (u ∈ s.messaged → countEv (dmsUser u) (ig_run F I Ps s).trace = 0)
    ∧ (x ∈ s.viewed → countEv (touchesStory x) (bot_run F I target Ps s).trace = 0)
    ∧ (x ∈ s.liked → countEv (likesPost x) (bot_run F I target Ps s).trace = 0)
    ∧ (x ∈ s.commented → countEv (commentsPost x) (bot_run F I target Ps s).trace = 0)
    ∧ (target ∈ s.followed →
        countEv isFollowEv (bot_run F I target Ps s).trace = 0
        ∧ target ∈ (bot_run F I target Ps s).st.followed
        ∧ (follow_target_account P I target s).val = some false
        ∧ countEv isFollowEv (follow_target_account P I target s).trace = 0) := by
  refine ⟨?_, ?_, ?_, ?_, ?_, ?_, ?_, ?_⟩
  · intro hx
    have hcyc : ∀ P2 s2, x ∈ St.viewed s2 →
        x ∈ (ig_execute_cycle P2 F I s2).st.viewed
        ∧ countEv (touchesStory x) (ig_execute_cycle P2 F I s2).trace = 0 := by
      intro P2 s2 hq
      refine ig_cycle_keep P2 F I (fun st => x ∈ st.viewed) (touchesStory x)
        ?_ ?_ ?_ s2 hq
      · exact fun s1 h => handle_stories_viewed_keep P2 F I igLimits s1 x h
      · intro s1 h
        refine ⟨?_, engage_feed_count_zero P2 F I igLimits s1 (touchesStory x)
          ⟨rfl, fun n => rfl, fun o => rfl⟩
          (fun e he => by cases e <;> simp_all [isFeedKind, touchesStory])
          (fun n o => rfl)⟩
        dsimp only
        rw [(engage_feed_sets P2 F I igLimits s1).1]
        exact h
      · intro s1 h
        refine ⟨?_, dm_pass_count_zero P2 I s1 (touchesStory x)
          ⟨rfl, fun n => rfl, fun o => rfl⟩
          (fun e he => by cases e <;> simp_all [isDmKind, touchesStory])
          (fun o => rfl)⟩
        dsimp only
        rw [(dm_pass_sets P2 I s1).1]
        exact h
    exact (ig_run_keep F I (fun st => x ∈ st.viewed) (touchesStory x)
      (fun n => rfl) hcyc Ps s hx).2
  · intro hx
    have hcyc : ∀ P2 s2, x ∈ St.liked s2 →
        x ∈ (ig_execute_cycle P2 F I s2).st.liked
        ∧ countEv (likesPost x) (ig_execute_cycle P2 F I s2).trace = 0 := by
      intro P2 s2 hq
      refine ig_cycle_keep P2 F I (fun st => x ∈ st.liked) (likesPost x)
        ?_ ?_ ?_ s2 hq
      · intro s1 h
        refine ⟨?_, handle_stories_count_zero P2 F I igLimits s1 (likesPost x)
          ⟨rfl, fun n => rfl, fun o => rfl⟩
          (fun e he => by cases e <;> simp_all [isStoryKind, likesPost])
          (fun o => rfl)⟩
        dsimp only
        rw [(handle_stories_sets P2 F I igLimits s1).1]
        exact h
      · exact fun s1 h => engage_feed_liked_keep P2 F I igLimits s1 x h
      · intro s1 h
        refine ⟨?_, dm_pass_count_zero P2 I s1 (likesPost x)
          ⟨rfl, fun n => rfl, fun o => rfl⟩
          (fun e he => by cases e <;> simp_all [isDmKind, likesPost])
          (fun o => rfl)⟩
        dsimp only
        rw [(dm_pass_sets P2 I s1).2.1]
        exact h
    exact (ig_run_keep F I (fun st => x ∈ st.liked) (likesPost x)
      (fun n => rfl) hcyc Ps s hx).2
  · intro hx
    have hcyc : ∀ P2 s2, x ∈ St.commented s2 →
        x ∈ (ig_execute_cycle P2 F I s2).st.commented
        ∧ countEv (commentsPost x) (ig_execute_cycle P2 F I s2).trace = 0 := by
      intro P2 s2 hq
      refine ig_cycle_keep P2 F I (fun st => x ∈ st.commented) (commentsPost x)
        ?_ ?_ ?_ s2 hq
      · intro s1 h
        refine ⟨?_, handle_stories_count_zero P2 F I igLimits s1 (commentsPost x)
          ⟨rfl, fun n => rfl, fun o => rfl⟩
          (fun e he => by cases e <;> simp_all [isStoryKind, commentsPost])
          (fun o => rfl)⟩
        dsimp only
        rw [(handle_stories_sets P2 F I igLimits s1).2.1]
        exact h
      · exact fun s1 h => engage_feed_commented_keep P2 F I igLimits s1 x h
      · intro s1 h
        refine ⟨?_, dm_pass_count_zero P2 I s1 (commentsPost x)
          ⟨rfl, fun n => rfl, fun o => rfl⟩
          (fun e he => by cases e <;> simp_all [isDmKind, commentsPost])
          (fun o => rfl)⟩
        dsimp only
        rw [(dm_pass_sets P2 I s1).2.2]
        exact h
    exact (ig_run_keep F I (fun st => x ∈ st.commented) (commentsPost x)
      (fun n => rfl) hcyc Ps s hx).2
  · intro hx
    have hcyc : ∀ P2 s2, u ∈ St.messaged s2 →
        u ∈ (ig_execute_cycle P2 F I s2).st.messaged
        ∧ countEv (dmsUser u) (ig_execute_cycle P2 F I s2).trace = 0 := by
      intro P2 s2 hq
      refine ig_cycle_keep P2 F I (fun st => u ∈ st.messaged) (dmsUser u)
        ?_ ?_ ?_ s2 hq
      · intro s1 h
        refine ⟨?_, handle_stories_count_zero P2 F I igLimits s1 (dmsUser u)
          ⟨rfl, fun n => rfl, fun o => rfl⟩
          (fun e he => by cases e <;> simp_all [isStoryKind, dmsUser])
          (fun o => rfl)⟩
        dsimp only
        rw [(handle_stories_sets P2 F I igLimits s1).2.2]
        exact h
      · intro s1 h
        refine ⟨?_, engage_feed_count_zero P2 F I igLimits s1 (dmsUser u)
          ⟨rfl, fun n => rfl, fun o => rfl⟩
          (fun e he => by cases e <;> simp_all [isFeedKind, dmsUser])
          (fun n o => rfl)⟩
        dsimp only
        rw [(engage_feed_sets P2 F I igLimits s1).2]
        exact h
      · exact fun s1 h => dm_pass_messaged_keep P2 I s1 u h
    exact (ig_run_keep F I (fun st => u ∈ st.messaged) (dmsUser u)
      (fun n => rfl) hcyc Ps s hx).2
  · intro hx
    have hcyc : ∀ P2 s2, x ∈ St.viewed s2 →
        x ∈ (bot_execute_cycle P2 F I target s2).st.viewed
        ∧ countEv (touchesStory x) (bot_execute_cycle P2 F I target s2).trace = 0 := by
      intro P2 s2 hq
      refine bot_cycle_keep P2 F I target (fun st => x ∈ st.viewed) (touchesStory x)
        (fun st h n => h) (fun n => rfl) ?_ ?_ ?_ ?_ s2 hq
      · exact fun s1 h => handle_stories_viewed_keep P2 F I botLimits s1 x h
      · intro s1 h
        refine ⟨?_, engage_feed_count_zero P2 F I botLimits s1 (touchesStory x)
          ⟨rfl, fun n => rfl, fun o => rfl⟩
          (fun e he => by cases e <;> simp_all [isFeedKind, touchesStory])
          (fun n o => rfl)⟩
        dsimp only
        rw [(engage_feed_sets P2 F I botLimits s1).1]
        exact h
      · intro s1 h
        refine ⟨?_, (follow_pass_count_zero P2 I target s1 (touchesStory x)
          ⟨rfl, fun n => rfl, fun o => rfl⟩
          (fun e he => by cases e <;> simp_all [isFollowKind, touchesStory])).1⟩
        dsimp only
        rw [((follow_pass_sets P2 I target s1).1).1]
        exact h
      · intro s1 h
        refine ⟨?_, (follow_pass_count_zero P2 I target s1 (touchesStory x)
          ⟨rfl, fun n => rfl, fun o => rfl⟩
          (fun e he => by cases e <;> simp_all [isFollowKind, touchesStory])).2⟩
        dsimp only
        rw [((follow_pass_sets P2 I target s1).2).1]
        exact h
    exact (bot_run_keep F I target (fun st => x ∈ st.viewed) (touchesStory x)
      (fun n => rfl) hcyc Ps s hx).2
  · intro hx
    have hcyc : ∀ P2 s2, x ∈ St.liked s2 →
        x ∈ (bot_execute_cycle P2 F I target s2).st.liked
        ∧ countEv (likesPost x) (bot_execute_cycle P2 F I target s2).trace = 0 := by
      intro P2 s2 hq
      refine bot_cycle_keep P2 F I target (fun st => x ∈ st.liked) (likesPost x)
        (fun st h n => h) (fun n => rfl) ?_ ?_ ?_ ?_ s2 hq
      · intro s1 h
        refine ⟨?_, handle_stories_count_zero P2 F I botLimits s1 (likesPost x)
          ⟨rfl, fun n => rfl, fun o => rfl⟩
          (fun e he => by cases e <;> simp_all [isStoryKind, likesPost])
          (fun o => rfl)⟩
        dsimp only
        rw [(handle_stories_sets P2 F I botLimits s1).1]
        exact h
      · exact fun s1 h => engage_feed_liked_keep P2 F I botLimits s1 x h
      · intro s1 h
        refine ⟨?_, (follow_pass_count_zero P2 I target s1 (likesPost x)
          ⟨rfl, fun n => rfl, fun o => rfl⟩
          (fun e he => by cases e <;> simp_all [isFollowKind, likesPost])).1⟩
        dsimp only
        rw [((follow_pass_sets P2 I target s1).1).2.1]
        exact h
      · intro s1 h
        refine ⟨?_, (follow_pass_count_zero P2 I target s1 (likesPost x)
          ⟨rfl, fun n => rfl, fun o => rfl⟩
          (fun e he => by cases e <;> simp_all [isFollowKind, likesPost])).2⟩
        dsimp only
        rw [((follow_pass_sets P2 I target s1).2).2.1]
        exact h
    exact (bot_run_keep F I target (fun st => x ∈ st.liked) (likesPost x)
      (fun n => rfl) hcyc Ps s hx).2
  · intro hx
    have hcyc : ∀ P2 s2, x ∈ St.commented s2 →
        x ∈ (bot_execute_cycle P2 F I target s2).st.commented
        ∧ countEv (commentsPost x) (bot_execute_cycle P2 F I target s2).trace = 0 := by
      intro P2 s2 hq
      refine bot_cycle_keep P2 F I target (fun st => x ∈ st.commented) (commentsPost x)
        (fun st h n => h) (fun n => rfl) ?_ ?_ ?_ ?_ s2 hq
      · intro s1 h
        refine ⟨?_, handle_stories_count_zero P2 F I botLimits s1 (commentsPost x)
          ⟨rfl, fun n => rfl, fun o => rfl⟩
          (fun e he => by cases e <;> simp_all [isStoryKind, commentsPost])
          (fun o => rfl)⟩
        dsimp only
        rw [(handle_stories_sets P2 F I botLimits s1).2.1]
        exact h
      · exact fun s1 h => engage_feed_commented_keep P2 F I botLimits s1 x h
      · intro s1 h
        refine ⟨?_, (follow_pass_count_zero P2 I target s1 (commentsPost x)
          ⟨rfl, fun n => rfl, fun o => rfl⟩
          (fun e he => by cases e <;> simp_all [isFollowKind, commentsPost])).1⟩
        dsimp only
        rw [((follow_pass_sets P2 I target s1).1).2.2.1]
        exact h
      · intro s1 h
        refine ⟨?_, (follow_pass_count_zero P2 I target s1 (commentsPost x)
          ⟨rfl, fun n => rfl, fun o => rfl⟩
          (fun e he => by cases e <;> simp_all [isFollowKind, commentsPost])).2⟩
        dsimp only
        rw [((follow_pass_sets P2 I target s1).2).2.2.1]
        exact h
    exact (bot_run_keep F I target (fun st => x ∈ st.commented) (commentsPost x)
      (fun n => rfl) hcyc Ps s hx).2
  · intro hx
    have hrun := bot_run_keep F I target (fun st => target ∈ st.followed) isFollowEv
      (fun n => rfl) (fun P2 s2 h => bot_cycle_follow_keep P2 F I target s2 h) Ps s hx
    refine ⟨hrun.2, hrun.1, ?_, ?_⟩
    · simp [follow_target_account, follow_core, hx, safe_action]
    · simp [follow_target_account, follow_core, hx, safe_action,
        countEv_append, countEv_cons, countEv_nil, isFollowEv]

/-- A state with one tracked identifier in every duplicate set. -/
def sw : St := ⟨{"v"}, {"l"}, {"c"}, {"t"}, {7}, none, 0, 0⟩

/-- Witness for C2 at a concrete one-cycle run with populated trackers. -/
theorem no_repeat_actions_witness :
    countEv (touchesStory "v") (ig_run F0 I0 [P0] sw).trace = 0
    ∧ countEv (likesPost "l") (ig_run F0 I0 [P0] sw).trace = 0
    ∧ countEv (commentsPost "c") (ig_run F0 I0 [P0] sw).trace = 0
    ∧ countEv (dmsUser 7) (ig_run F0 I0 [P0] sw).trace = 0
    ∧ countEv (touchesStory "v") (bot_run F0 I0 "t" [P0] sw).trace = 0
    ∧ countEv isFollowEv (bot_run F0 I0 "t" [P0] sw).trace = 0
    ∧ (follow_target_account P0 I0 "t" sw).val = some false :=
  ⟨(no_repeat_actions F0 I0 [P0] sw "v" 7 "t" P0).1 (by decide),
   (no_repeat_actions F0 I0 [P0] sw "l" 7 "t" P0).2.1 (by decide),
   (no_repeat_actions F0 I0 [P0] sw "c" 7 "t" P0).2.2.1 (by decide),
   (no_repeat_actions F0 I0 [P0] sw "v" 7 "t" P0).2.2.2.1 (by decide),
   (no_repeat_actions F0 I0 [P0] sw "v" 7 "t" P0).2.2.2.2.1 (by decide),
   ((no_repeat_actions F0 I0 [P0] sw "v" 7 "t" P0).2.2.2.2.2.2.2 (by decide)).1,
   ((no_repeat_actions F0 I0 [P0] sw "v" 7 "t" P0).2.2.2.2.2.2.2 (by decide)).2.2.1⟩
